import Mathlib

/-
Verification of the feature-flag evaluation engine in
rust/feature-flags/src/flags/flag_matching.rs.

The Rust code is shallowly embedded: pure functions become Lean functions,
the request-scoped matcher state and its database accesses become explicit
parameters (values the request cache would hold, or the results of the
one-shot fetches), and fallible code returns Except.  IEEE-754 binary64
arithmetic is modelled exactly over ℚ with an explicit round-to-nearest,
ties-to-even rounding function.  match_property is an oracle parameter, as
the spec prescribes for property-matching primitives.
-/

/-- Minimal model of serde_json::Value.  Arrays and objects are omitted:
no code modelled here inspects them (property values only flow into the
match_property oracle and payload lookups). -/
inductive JsonValue where
  | null : JsonValue
  | bool (b : Bool) : JsonValue
  | num (q : ℚ) : JsonValue
  | str (s : String) : JsonValue
deriving DecidableEq, Repr

/-- Property-filter operators used by the cohort membership logic
(src only matches In / NotIn; every other operator falls in a catch-all). -/
inductive OperatorType where
  | In : OperatorType
  | NotIn : OperatorType
  | exact : OperatorType
deriving DecidableEq, Repr

/-- PropertyFilter (from crate::properties::property_models, reconstructed
from its uses in flag_matching.rs: key, prop_type with "cohort" marking
cohort filters, an optional operator, and for cohort filters the referenced
cohort id). -/
structure PropertyFilter where
  key : String
  prop_type : String
  operator : Option OperatorType
  cohort_id : Option Int
deriving DecidableEq, Repr

/-- PropertyFilter::is_cohort, per its use sites: a filter whose type is
"cohort". -/
def PropertyFilter.is_cohort (p : PropertyFilter) : Bool :=
  p.prop_type == "cohort"

/-- PropertyFilter::get_cohort_id, per its use sites in flag_matching.rs. -/
def PropertyFilter.get_cohort_id (p : PropertyFilter) : Option Int :=
  p.cohort_id

/-- The error kinds of crate::api::errors::FlagError that flag_matching.rs
constructs or matches on. -/
inductive FlagError where
  | databaseUnavailable : FlagError
  | noGroupTypeMappings : FlagError
  | databaseError (msg : String) : FlagError
  | timeoutError : FlagError
  | personNotFound : FlagError
  | cohortNotFound (id : String) : FlagError
  | cohortDependencyCycle (msg : String) : FlagError
  | cohortFiltersParsingError : FlagError
deriving DecidableEq, Repr

/-- Key lookup in a map modelled as an association list
(HashMap::contains_key). -/
def hasKey (m : List (String × JsonValue)) (k : String) : Bool :=
  (m.lookup k).isSome

/-- locally_computable_property_overrides (flag_matching.rs): return the
caller-supplied overrides iff every filter key is present in them and no
filter is cohort-typed; otherwise None. -/
def locally_computable_property_overrides
    (property_overrides : Option (List (String × JsonValue)))
    (property_filters : List PropertyFilter) :
    Option (List (String × JsonValue)) :=
  property_overrides.bind fun overrides =>
    let should_prefer_overrides := property_filters.all fun prop =>
      hasKey overrides prop.key && prop.prop_type != "cohort"
    if should_prefer_overrides then some overrides else none

/-- GroupTypeMappingCache: the request-scoped name↔index cache with its
sticky failure flag.  The DB reader handle is replaced by passing each
call the rows the fetch would return. -/
structure GroupTypeMappingCache where
  failed_to_fetch_flags : Bool
  group_types_to_indexes : List (String × Int)
  group_indexes_to_types : List (Int × String)
deriving DecidableEq, Repr

/-- GroupTypeMappingCache::fetch_group_type_mapping: turns the raw rows of
the posthog_grouptypemapping query into a map, erring with
NoGroupTypeMappings when the result is empty. -/
def fetch_group_type_mapping
    (rows : Except FlagError (List (String × Int))) :
    Except FlagError (List (String × Int)) :=
  match rows with
  | .error e => .error e
  | .ok mapping =>
      if mapping.isEmpty then .error .noGroupTypeMappings else .ok mapping

/-- GroupTypeMappingCache::group_type_to_group_type_index_map: fail fast when
the sticky flag is set, serve from cache when warm, otherwise fetch; an
empty fetch or a fetch error sets the sticky flag.  Returns the result
together with the updated cache state. -/
def group_type_to_group_type_index_map
    (rows : Except FlagError (List (String × Int)))
    (c : GroupTypeMappingCache) :
    Except FlagError (List (String × Int)) × GroupTypeMappingCache :=
  if c.failed_to_fetch_flags then
    (.error .databaseUnavailable, c)
  else if !c.group_types_to_indexes.isEmpty then
    (.ok c.group_types_to_indexes, c)
  else
    match fetch_group_type_mapping rows with
    | .ok mapping =>
        if !mapping.isEmpty then
          (.ok mapping, { c with group_types_to_indexes := mapping })
        else
          (.error .noGroupTypeMappings, { c with failed_to_fetch_flags := true })
    | .error e =>
        (.error e, { c with failed_to_fetch_flags := true })

deriving instance DecidableEq for Except

/-- C3: locally_computable_property_overrides returns the supplied overrides
iff every filter key is present in them and no filter is cohort-typed, and
returns none exactly otherwise. -/
theorem c3_override_gate_iff
    (overrides : List (String × JsonValue)) (filters : List PropertyFilter) :
    (locally_computable_property_overrides (some overrides) filters = some overrides
      ↔ ∀ p ∈ filters, (overrides.lookup p.key).isSome ∧ p.prop_type ≠ "cohort")
    ∧ (locally_computable_property_overrides (some overrides) filters = none
      ↔ ¬ ∀ p ∈ filters, (overrides.lookup p.key).isSome ∧ p.prop_type ≠ "cohort") := by
  have key : (filters.all fun prop =>
      hasKey overrides prop.key && prop.prop_type != "cohort") = true ↔
      ∀ p ∈ filters, (overrides.lookup p.key).isSome ∧ p.prop_type ≠ "cohort" := by
    simp [List.all_eq_true, hasKey]
  have unfd : locally_computable_property_overrides (some overrides) filters =
      if filters.all (fun prop =>
        hasKey overrides prop.key && prop.prop_type != "cohort") then
        some overrides else none := rfl
  rw [unfd]
  by_cases hall : (filters.all fun prop =>
      hasKey overrides prop.key && prop.prop_type != "cohort") = true
  · rw [if_pos hall]
    exact ⟨⟨fun _ => key.mp hall, fun _ => rfl⟩,
      ⟨fun h => Option.noConfusion h, fun hnp => absurd (key.mp hall) hnp⟩⟩
  · rw [if_neg hall]
    exact ⟨⟨fun h => Option.noConfusion h, fun hp => absurd (key.mpr hp) hall⟩,
      ⟨fun _ hp => absurd (key.mpr hp) hall, fun _ => rfl⟩⟩

/-- C4 counterexample: after a fetch that yields an empty mapping, the sticky
flag is set, but the next lookup fails with DatabaseUnavailable, not with the
NoGroupTypeMappings ("no mappings") error the claim asserts. -/
theorem c4_subsequent_error_counterexample :
    ((group_type_to_group_type_index_map (.ok []) ⟨false, [], []⟩).2).failed_to_fetch_flags = true
    ∧ (group_type_to_group_type_index_map (.ok [("project", 0)])
        (group_type_to_group_type_index_map (.ok []) ⟨false, [], []⟩).2).1
      = .error .databaseUnavailable
    ∧ (Except.error FlagError.databaseUnavailable
        : Except FlagError (List (String × Int)))
      ≠ .error .noGroupTypeMappings := by
  decide

/-- C4 (amended): a DB error or an empty fetch sets the sticky failed flag and
returns that error; once the flag is set, every later lookup fails fast with
DatabaseUnavailable — the fetch result is ignored (no retry, no partial
data) and the state is unchanged. -/
theorem c4_sticky_failure
    (c : GroupTypeMappingCache)
    (rows : Except FlagError (List (String × Int))) (e : FlagError) :
    (c.failed_to_fetch_flags = true →
      group_type_to_group_type_index_map rows c = (.error .databaseUnavailable, c))
    ∧ (c.failed_to_fetch_flags = false → c.group_types_to_indexes = [] →
        rows = .ok [] →
        group_type_to_group_type_index_map rows c
          = (.error .noGroupTypeMappings, { c with failed_to_fetch_flags := true }))
    ∧ (c.failed_to_fetch_flags = false → c.group_types_to_indexes = [] →
        rows = .error e →
        group_type_to_group_type_index_map rows c
          = (.error e, { c with failed_to_fetch_flags := true })) := by
  refine ⟨fun hf => ?_, fun hf hc hr => ?_, fun hf hc hr => ?_⟩
  · simp [group_type_to_group_type_index_map, hf]
  · subst hr
    simp [group_type_to_group_type_index_map, hf, hc, fetch_group_type_mapping]
  · subst hr
    simp [group_type_to_group_type_index_map, hf, hc, fetch_group_type_mapping]

/-- Witness for c4_sticky_failure at concrete states. -/
theorem c4_sticky_failure_witness :
    (group_type_to_group_type_index_map (.ok [("project", 0)]) ⟨true, [], []⟩
      = (.error .databaseUnavailable, ⟨true, [], []⟩))
    ∧ (group_type_to_group_type_index_map (.ok []) ⟨false, [], []⟩
      = (.error .noGroupTypeMappings, ⟨true, [], []⟩))
    ∧ (group_type_to_group_type_index_map (.error .timeoutError) ⟨false, [], []⟩
      = (.error .timeoutError, ⟨true, [], []⟩)) :=
  ⟨(c4_sticky_failure ⟨true, [], []⟩ (.ok [("project", 0)]) .timeoutError).1 rfl,
   (c4_sticky_failure ⟨false, [], []⟩ (.ok []) .timeoutError).2.1 rfl rfl rfl,
   (c4_sticky_failure ⟨false, [], []⟩ (.error .timeoutError) .timeoutError).2.2 rfl rfl rfl⟩

/- ----------------------------------------------------------------- -/
/- Hasher: SHA-1, the IEEE-754 binary64 model, and calculate_hash.   -/
/- ----------------------------------------------------------------- -/

/-- 32-bit truncation. -/
def m32 (x : Nat) : Nat := x % 4294967296

/-- 32-bit left rotation. -/
def rotl32 (n x : Nat) : Nat :=
  m32 ((x <<< n) ||| (x >>> (32 - n)))

/-- UTF-8 encoding of one character (the byte sequence str::as_bytes sees). -/
def utf8EncodeCharM (c : Char) : List Nat :=
  let n := c.toNat
  if n < 128 then [n]
  else if n < 2048 then
    [192 ||| (n >>> 6), 128 ||| (n &&& 63)]
  else if n < 65536 then
    [224 ||| (n >>> 12), 128 ||| ((n >>> 6) &&& 63), 128 ||| (n &&& 63)]
  else
    [240 ||| (n >>> 18), 128 ||| ((n >>> 12) &&& 63),
     128 ||| ((n >>> 6) &&& 63), 128 ||| (n &&& 63)]

/-- UTF-8 bytes of a string. -/
def utf8Bytes (s : String) : List Nat :=
  s.data.flatMap utf8EncodeCharM

/-- SHA-1 message padding: 0x80, zeros to 56 mod 64, then the bit length as
eight big-endian bytes. -/
def sha1Pad (msg : List Nat) : List Nat :=
  let l := msg.length
  let zeros := (119 - l % 64) % 64
  let bitLen := 8 * l
  msg ++ [128] ++ List.replicate zeros 0 ++
    [m32 (bitLen >>> 56) % 256, (bitLen >>> 48) % 256, (bitLen >>> 40) % 256,
     (bitLen >>> 32) % 256, (bitLen >>> 24) % 256, (bitLen >>> 16) % 256,
     (bitLen >>> 8) % 256, bitLen % 256]

/-- Big-endian 32-bit words of a 64-byte block. -/
def blockWords (block : List Nat) : List Nat :=
  (List.range 16).map fun i =>
    (block.getD (4 * i) 0) <<< 24 ||| (block.getD (4 * i + 1) 0) <<< 16 |||
    (block.getD (4 * i + 2) 0) <<< 8 ||| block.getD (4 * i + 3) 0

/-- SHA-1 message-schedule expansion from 16 to 80 words. -/
def sha1Schedule (w16 : List Nat) : List Nat :=
  (List.range 80).foldl
    (fun w t =>
      if t < 16 then w
      else w ++ [rotl32 1 ((w.getD (t - 3) 0) ^^^ (w.getD (t - 8) 0) ^^^
        (w.getD (t - 14) 0) ^^^ (w.getD (t - 16) 0))])
    w16

/-- SHA-1 round function. -/
def sha1F (t b c d : Nat) : Nat :=
  if t < 20 then (b &&& c) ||| ((b ^^^ 4294967295) &&& d)
  else if t < 40 then b ^^^ c ^^^ d
  else if t < 60 then (b &&& c) ||| (b &&& d) ||| (c &&& d)
  else b ^^^ c ^^^ d

/-- SHA-1 round constants. -/
def sha1K (t : Nat) : Nat :=
  if t < 20 then 1518500249
  else if t < 40 then 1859775393
  else if t < 60 then 2400959708
  else 3395469782

/-- One SHA-1 compression step over the five-word state. -/
def sha1Round (w : List Nat) (st : Nat × Nat × Nat × Nat × Nat) (t : Nat) :
    Nat × Nat × Nat × Nat × Nat :=
  match st with
  | (a, b, c, d, e) =>
    let temp := m32 (rotl32 5 a + sha1F t b c d + e + w.getD t 0 + sha1K t)
    (temp, a, rotl32 30 b, c, d)

/-- SHA-1 compression of one 64-byte block into the running five-word hash. -/
def sha1Compress (h : Nat × Nat × Nat × Nat × Nat) (block : List Nat) :
    Nat × Nat × Nat × Nat × Nat :=
  let w := sha1Schedule (blockWords block)
  match h, (List.range 80).foldl (sha1Round w) h with
  | (h0, h1, h2, h3, h4), (a, b, c, d, e) =>
    (m32 (h0 + a), m32 (h1 + b), m32 (h2 + c), m32 (h3 + d), m32 (h4 + e))

/-- Split the padded message into 64-byte blocks. -/
def sha1Blocks (padded : List Nat) : List (List Nat) :=
  (List.range (padded.length / 64)).map fun i => (padded.drop (64 * i)).take 64

/-- SHA-1 digest of a byte sequence, as the twenty digest bytes. -/
def sha1Digest (msg : List Nat) : List Nat :=
  let (h0, h1, h2, h3, h4) :=
    (sha1Blocks (sha1Pad msg)).foldl sha1Compress
      (1732584193, 4023233417, 2562383102, 271733878, 3285377520)
  [h0 >>> 24 % 256, h0 >>> 16 % 256, h0 >>> 8 % 256, h0 % 256,
   h1 >>> 24 % 256, h1 >>> 16 % 256, h1 >>> 8 % 256, h1 % 256,
   h2 >>> 24 % 256, h2 >>> 16 % 256, h2 >>> 8 % 256, h2 % 256,
   h3 >>> 24 % 256, h3 >>> 16 % 256, h3 >>> 8 % 256, h3 % 256,
   h4 >>> 24 % 256, h4 >>> 16 % 256, h4 >>> 8 % 256, h4 % 256]

/-- One lowercase hex digit. -/
def hexDigit (n : Nat) : Char :=
  Char.ofNat (if n < 10 then 48 + n else 87 + n)

/-- The lowercase hex string of the digest bytes (the fold with
write!("{:02x}") in calculate_hash). -/
def digestHexString (bytes : List Nat) : String :=
  ⟨bytes.flatMap fun b => [hexDigit (b / 16), hexDigit (b % 16)]⟩

/-- Value of one hex character (only lowercase hex digits occur). -/
def hexCharVal (c : Char) : Nat :=
  if c.toNat < 58 then c.toNat - 48 else c.toNat - 87

/-- u64::from_str_radix(_, 16) on the truncated hex string. -/
def parseHexNat (s : List Char) : Nat :=
  s.foldl (fun acc c => 16 * acc + hexCharVal c) 0

/-- LONG_SCALE = 0xfffffffffffffff (2^60 − 1). -/
def LONG_SCALE : Nat := 0xfffffffffffffff

/-- The 60-bit integer calculate_hash builds: SHA-1 over the UTF-8 bytes of
pfx ∥ ident ∥ salt, hex-encoded, truncated to 15 characters, parsed base 16. -/
def calculate_hash_num (pfx ident salt : String) : Nat :=
  parseHexNat ((digestHexString (sha1Digest (utf8Bytes (pfx ++ ident ++ salt)))).data.take 15)

/-- 2^e as a rational, for integer e. -/
def pow2Z (e : Int) : ℚ :=
  if 0 ≤ e then ((2 ^ e.toNat : Nat) : ℚ) else (1 : ℚ) / ((2 ^ (-e).toNat : Nat) : ℚ)

/-- ⌊log₂ n⌋ for positive n, fuel-based structural recursion so that it
reduces in the kernel. -/
def natLog2Go (fuel n : Nat) : Nat :=
  match fuel with
  | 0 => 0
  | fuel + 1 => if n < 2 then 0 else natLog2Go fuel (n / 2) + 1

/-- ⌊log₂ n⌋ (0 at 0). -/
def natLog2 (n : Nat) : Nat := natLog2Go n n

/-- Whether 2^l ≤ num/den for positive num, den. -/
def pow2leND (l : Int) (num den : Nat) : Bool :=
  if 0 ≤ l then den <<< l.toNat ≤ num else den ≤ num <<< (-l).toNat

/-- ⌊log₂ (num/den)⌋ for positive num, den. -/
def floorLog2ND (num den : Nat) : Int :=
  let a : Int := (natLog2 num : Nat)
  let b : Int := (natLog2 den : Nat)
  if pow2leND (a - b) num den then a - b else a - b - 1

/-- A nonnegative finite binary64 value, represented exactly as
mantissa × 2^exponent (mantissa in [2^52, 2^53), canonical; zero is (0, 0)).
Every value the hash computation produces is in the normal range. -/
abbrev F64 := Nat × Int

/-- Round num·2^e2/den (num, den positive) to the nearest binary64 value —
round to nearest, ties to even.  This is the single rounding primitive;
conversions and division below instantiate it. -/
def roundF64ND (num den : Nat) (e2 : Int) : F64 :=
  if num = 0 then (0, 0)
  else
    let e := floorLog2ND num den + e2
    let t := e2 - e + 52
    let x := if 0 ≤ t then num <<< t.toNat else num
    let d := if 0 ≤ t then den else den <<< (-t).toNat
    let m0 := x / d
    let r := x % d
    let m := if d < 2 * r then m0 + 1 else if 2 * r < d then m0 else m0 + m0 % 2
    if m = 9007199254740992 then (4503599627370496, e - 51) else (m, e - 52)

/-- `n as f64`. -/
def natToF64 (n : Nat) : F64 := roundF64ND n 1 0

/-- Correctly rounded binary64 division. -/
def f64div (a b : F64) : F64 := roundF64ND a.1 b.1 (a.2 - b.2)

/-- The binary64 value of a nonnegative rational (the f64 constants the
source stores, e.g. a variant's rollout percentage). -/
def qToF64 (q : ℚ) : F64 := roundF64ND q.num.toNat q.den 0

/-- Correctly rounded binary64 addition. -/
def f64add (a b : F64) : F64 :=
  let e := min a.2 b.2
  roundF64ND (a.1 <<< (a.2 - e).toNat + b.1 <<< (b.2 - e).toNat) 1 e

/-- Exact comparison of two binary64 values (the f64 `<`). -/
def f64lt (a b : F64) : Bool :=
  let e := min a.2 b.2
  a.1 <<< (a.2 - e).toNat < b.1 <<< (b.2 - e).toNat

/-- The rational value of a binary64 representation. -/
def dyadicQ (p : F64) : ℚ := (p.1 : ℚ) * pow2Z p.2

/-- calculate_hash (flag_matching.rs): hash_val as f64 / LONG_SCALE as f64,
with binary64 arithmetic modelled exactly. -/
def calculate_hash_f64 (pfx ident salt : String) : F64 :=
  f64div (natToF64 (calculate_hash_num pfx ident salt)) (natToF64 LONG_SCALE)

/-- calculate_hash as a rational number (the exact value of the f64 the Rust
function returns). -/
def calculate_hash (pfx ident salt : String) : ℚ :=
  dyadicQ (calculate_hash_f64 pfx ident salt)

/-- The binary64 value denoted by the decimal literal d / 10^k — what the
canonical test vectors' decimal constants denote as f64 values. -/
def decimalF64 (d : Nat) (k : Nat) : F64 := roundF64ND d (10 ^ k) 0

set_option maxRecDepth 10000 in
/-- C1: calculate_hash (SHA-1 over prefix ∥ identifier ∥ salt, first 15
lowercase hex characters parsed as a 60-bit integer, divided by 2^60 − 1 in
binary64 arithmetic) reproduces the canonical test vectors, stated both on
the binary64 representation and on its exact rational value. -/
theorem c1_calculate_hash_canonical_vectors :
    calculate_hash_f64 "holdout-" "some_distinct_id" "" = decimalF64 7270002403585725 16
    ∧ calculate_hash_f64 "holdout-" "example_id" "" = decimalF64 9402003475831224 16
    ∧ calculate_hash_f64 "holdout-" "test-identifier" "" = decimalF64 4493881716040236 16
    ∧ calculate_hash_f64 "holdout-" "example_id2" "" = decimalF64 6292740389966519 16
    ∧ calculate_hash "holdout-" "some_distinct_id" ""
        = dyadicQ (decimalF64 7270002403585725 16)
    ∧ calculate_hash "holdout-" "example_id" ""
        = dyadicQ (decimalF64 9402003475831224 16) :=
  ⟨by decide, by decide, by decide, by decide,
   congrArg dyadicQ (by decide), congrArg dyadicQ (by decide)⟩

/- ----------------------------------------------------------------- -/
/- Flag data model (flag_models.rs is not under src/; the shapes are  -/
/- reconstructed from their use sites in flag_matching.rs and §3 of   -/
/- the spec).                                                         -/
/- ----------------------------------------------------------------- -/

/-- One multivariate variant: key and rollout percentage. -/
structure MultivariateFlagVariant where
  key : String
  rollout_percentage : ℚ
deriving DecidableEq, Repr

/-- One condition (FlagGroupType in the source): optional property filters,
optional rollout percentage (default 100), optional variant override. -/
structure FlagCondition where
  properties : Option (List PropertyFilter)
  rollout_percentage : Option ℚ
  variant : Option String
deriving DecidableEq, Repr

/-- The filters record of a flag. -/
structure FlagFilters where
  groups : List FlagCondition
  multivariate : Option (List MultivariateFlagVariant)
  aggregation_group_type_index : Option Int
  payloads : List (String × JsonValue)
  super_groups : Option (List FlagCondition)
  holdout_groups : Option (List FlagCondition)
deriving DecidableEq, Repr

/-- A feature flag. -/
structure FeatureFlag where
  key : String
  active : Bool
  deleted : Bool
  ensure_experience_continuity : Bool
  filters : FlagFilters
deriving DecidableEq, Repr

/-- FeatureFlag::get_conditions. -/
def FeatureFlag.get_conditions (f : FeatureFlag) : List FlagCondition :=
  f.filters.groups

/-- FeatureFlag::get_variants (empty when the flag is not multivariate). -/
def FeatureFlag.get_variants (f : FeatureFlag) : List MultivariateFlagVariant :=
  f.filters.multivariate.getD []

/-- FeatureFlag::get_group_type_index. -/
def FeatureFlag.get_group_type_index (f : FeatureFlag) : Option Int :=
  f.filters.aggregation_group_type_index

/-- FeatureFlag::get_payload. -/
def FeatureFlag.get_payload (f : FeatureFlag) (v : String) : Option JsonValue :=
  f.filters.payloads.lookup v

/-- Modelled from the spec: FeatureFlagMatchReason lives in
crate::flags::flag_match_reason, which is not under src/.  The constructor
order realises the ascending priority order the spec gives in §4.7:
NoGroupType < NoConditionMatch < OutOfRolloutBound < ConditionMatch <
HoldoutConditionValue < SuperConditionValue. -/
inductive FeatureFlagMatchReason where
  | NoGroupType : FeatureFlagMatchReason
  | NoConditionMatch : FeatureFlagMatchReason
  | OutOfRolloutBound : FeatureFlagMatchReason
  | ConditionMatch : FeatureFlagMatchReason
  | HoldoutConditionValue : FeatureFlagMatchReason
  | SuperConditionValue : FeatureFlagMatchReason
deriving DecidableEq, Repr

/-- Numeric rank realising the reason priority order. -/
def reasonRank : FeatureFlagMatchReason → Nat
  | .NoGroupType => 0
  | .NoConditionMatch => 1
  | .OutOfRolloutBound => 2
  | .ConditionMatch => 3
  | .HoldoutConditionValue => 4
  | .SuperConditionValue => 5

/-- The ≤ comparison on match reasons (the derived Ord the source uses). -/
def reasonLe (a b : FeatureFlagMatchReason) : Bool :=
  reasonRank a ≤ reasonRank b

/-- The result of get_match for one flag ("matches" is a Lean keyword, so the
field is named is_match). -/
structure FeatureFlagMatch where
  is_match : Bool
  variant : Option String
  reason : FeatureFlagMatchReason
  condition_index : Option Nat
  payload : Option JsonValue
deriving DecidableEq, Repr

/-- SuperConditionEvaluation (flag_matching.rs). -/
structure SuperConditionEvaluation where
  should_evaluate : Bool
  is_match : Bool
  reason : FeatureFlagMatchReason
deriving DecidableEq, Repr

/- ----------------------------------------------------------------- -/
/- FeatureFlagMatcher: one get_match call.  The matcher's request     -/
/- state and its DB round-trips are deterministic within a request,   -/
/- so they are passed in as a context: the resolved group keys (the   -/
/- composition of the index→name mapping with the caller's groups     -/
/- map, "" when absent, as in hashed_identifier), the person-or-group -/
/- properties the cache/DB fetch would return, and the two oracles    -/
/- the spec designates (match_property, cohort evaluation).           -/
/- ----------------------------------------------------------------- -/

structure MatcherCtx where
  distinct_id : String
  groupKeys : List (Int × String)
  fetchedProps : List (String × JsonValue)
  fetchedPersonProps : List (String × JsonValue)
  matchProp : PropertyFilter → List (String × JsonValue) → Bool
  cohortEval : List PropertyFilter → List (String × JsonValue) → Bool

/-- hashed_identifier: group key for group-aggregated flags (empty when
absent), else the hash-key override for this flag key, else distinct_id. -/
def hashed_identifier (m : MatcherCtx) (flag : FeatureFlag)
    (hash_key_overrides : Option (List (String × String))) : String :=
  match flag.get_group_type_index with
  | some group_type_index => (m.groupKeys.lookup group_type_index).getD ""
  | none =>
      match hash_key_overrides.bind fun h => h.lookup flag.key with
      | some hash_key_override => hash_key_override
      | none => m.distinct_id

/-- get_hash: 0.0 for an empty identifier, else
calculate_hash("{key}.", identifier, salt). -/
def get_hash (m : MatcherCtx) (flag : FeatureFlag) (salt : String)
    (hash_key_overrides : Option (List (String × String))) : ℚ :=
  let ident := hashed_identifier m flag hash_key_overrides
  if ident = "" then 0 else calculate_hash (flag.key ++ ".") ident salt

/-- get_hash as a binary64 representation (0.0 for an empty identifier);
its dyadicQ value is get_hash. -/
def get_hash_f64 (m : MatcherCtx) (flag : FeatureFlag) (salt : String)
    (hash_key_overrides : Option (List (String × String))) : F64 :=
  let ident := hashed_identifier m flag hash_key_overrides
  if ident = "" then (0, 0) else calculate_hash_f64 (flag.key ++ ".") ident salt

/-- get_holdout_hash: calculate_hash("holdout-", identifier, salt or ""),
with the identifier resolved without hash-key overrides. -/
def get_holdout_hash (m : MatcherCtx) (flag : FeatureFlag)
    (salt : Option String) : ℚ :=
  calculate_hash "holdout-" (hashed_identifier m flag none) (salt.getD "")

/-- check_rollout: pass iff the percentage is 100 or the rollout hash is at
most percentage/100. -/
def check_rollout (m : MatcherCtx) (flag : FeatureFlag) (rollout_percentage : ℚ)
    (hash_key_overrides : Option (List (String × String))) :
    Bool × FeatureFlagMatchReason :=
  if rollout_percentage = 100 ∨ get_hash m flag "" hash_key_overrides ≤ rollout_percentage / 100 then
    (true, .ConditionMatch)
  else
    (false, .OutOfRolloutBound)

/-- The cumulative walk inside get_matching_variant: the running sum adds
variant.rollout_percentage / 100.0 in binary64, rounding at every step as
the source's f64 `cumulative_percentage` does, and the first variant whose
running sum exceeds the hash (f64 `<`) is returned. -/
def variantWalk (hash cumulative_percentage : F64) :
    List MultivariateFlagVariant → Option String
  | [] => none
  | variant :: rest =>
      let cumulative' := f64add cumulative_percentage
        (f64div (qToF64 variant.rollout_percentage) (natToF64 100))
      if f64lt hash cumulative' then some variant.key
      else variantWalk hash cumulative' rest

/-- get_matching_variant. -/
def get_matching_variant (m : MatcherCtx) (flag : FeatureFlag)
    (hash_key_overrides : Option (List (String × String))) : Option String :=
  variantWalk (get_hash_f64 m flag "variant" hash_key_overrides) (0, 0)
    flag.get_variants

/-- get_matching_payload. -/
def get_matching_payload (flag : FeatureFlag) (match_variant : Option String) :
    Option JsonValue :=
  flag.get_payload (match_variant.getD "true")

/-- get_person_properties / get_group_properties /
get_properties_to_check: caller-supplied overrides when they are locally
computable, otherwise the request cache / DB fetch (whose outcome is the
ctx field; a missing person yields the empty map there). -/
def get_properties_to_check (m : MatcherCtx)
    (property_overrides : Option (List (String × JsonValue)))
    (flag_property_filters : List PropertyFilter) : List (String × JsonValue) :=
  match locally_computable_property_overrides property_overrides flag_property_filters with
  | some overrides => overrides
  | none => m.fetchedProps

/-- all_properties_match over the match_property oracle. -/
def all_properties_match (mp : PropertyFilter → List (String × JsonValue) → Bool)
    (flag_condition_properties : List PropertyFilter)
    (matching_property_values : List (String × JsonValue)) : Bool :=
  flag_condition_properties.all fun p => mp p matching_property_values

/-- is_condition_match: empty/absent filters reduce to the rollout gate;
otherwise split cohort from non-cohort filters, resolve properties, require
every non-cohort filter then every cohort filter to pass, then the rollout
gate. -/
def is_condition_match (m : MatcherCtx) (flag : FeatureFlag)
    (condition : FlagCondition)
    (property_overrides : Option (List (String × JsonValue)))
    (hash_key_overrides : Option (List (String × String))) :
    Bool × FeatureFlagMatchReason :=
  let rollout_percentage := condition.rollout_percentage.getD 100
  match condition.properties with
  | some flag_property_filters =>
      if flag_property_filters.isEmpty then
        check_rollout m flag rollout_percentage hash_key_overrides
      else
        let cohort_filters := flag_property_filters.filter fun p => p.is_cohort
        let non_cohort_filters := flag_property_filters.filter fun p => !p.is_cohort
        let person_or_group_properties :=
          get_properties_to_check m property_overrides non_cohort_filters
        if !all_properties_match m.matchProp non_cohort_filters person_or_group_properties then
          (false, .NoConditionMatch)
        else if !cohort_filters.isEmpty
            && !m.cohortEval cohort_filters person_or_group_properties then
          (false, .NoConditionMatch)
        else
          check_rollout m flag rollout_percentage hash_key_overrides
  | none => check_rollout m flag rollout_percentage hash_key_overrides

/-- The holdout variant: the condition's override, else the computed variant
(without hash-key overrides), else "holdout". -/
def holdout_selected_variant (m : MatcherCtx) (flag : FeatureFlag)
    (condition : FlagCondition) : String :=
  match condition.variant with
  | some variant_override => variant_override
  | none => (get_matching_variant m flag none).getD "holdout"

/-- is_holdout_condition_match: only the first holdout condition is honoured;
conditions with property filters fail closed; a rollout percentage gates by
the holdout hash, absent means 100%. -/
def is_holdout_condition_match (m : MatcherCtx) (flag : FeatureFlag) :
    Bool × Option String × FeatureFlagMatchReason :=
  match flag.filters.holdout_groups with
  | some (condition :: _) =>
      if (condition.properties.map fun ps => !ps.isEmpty).getD false then
        (false, none, .NoConditionMatch)
      else if (condition.rollout_percentage.map fun percentage =>
          decide (percentage / 100 < get_holdout_hash m flag none)).getD false then
        (false, none, .OutOfRolloutBound)
      else
        (true, some (holdout_selected_variant m flag condition), .HoldoutConditionValue)
  | _ => (false, none, .NoConditionMatch)

/-- get_person_properties as used from the super-condition path. -/
def super_person_properties (m : MatcherCtx)
    (property_overrides : Option (List (String × JsonValue)))
    (flag_property_filters : List PropertyFilter) : List (String × JsonValue) :=
  match locally_computable_property_overrides property_overrides flag_property_filters with
  | some overrides => overrides
  | none => m.fetchedPersonProps

/-- is_super_condition_match: evaluate the first super condition; its verdict
counts only when at least one of its referenced properties exists in the
resolved person properties. -/
def is_super_condition_match (m : MatcherCtx) (flag : FeatureFlag)
    (property_overrides : Option (List (String × JsonValue)))
    (hash_key_overrides : Option (List (String × String))) :
    SuperConditionEvaluation :=
  match flag.filters.super_groups.bind List.head? with
  | some first_condition =>
      let person_properties :=
        super_person_properties m property_overrides (first_condition.properties.getD [])
      let has_relevant_super_condition_properties :=
        (first_condition.properties.map fun props =>
          props.any fun prop => hasKey person_properties prop.key).getD false
      let r := is_condition_match m flag first_condition (some person_properties) hash_key_overrides
      if has_relevant_super_condition_properties then
        ⟨true, r.1, .SuperConditionValue⟩
      else
        ⟨false, false, .NoConditionMatch⟩
  | none => ⟨false, false, .NoConditionMatch⟩

/-- get_highest_priority_match_evaluation: keep the higher-priority reason,
ties replaced by the newer one. -/
def get_highest_priority_match_evaluation
    (current_match : FeatureFlagMatchReason) (current_index : Option Nat)
    (new_match : FeatureFlagMatchReason) (new_index : Option Nat) :
    FeatureFlagMatchReason × Option Nat :=
  if reasonLe current_match new_match then (new_match, new_index)
  else (current_match, current_index)

/-- The stable sort of the enumerated conditions by "has a variant override"
(override-bearing conditions first; the two-valued sort key makes the
filter-append form identical to the source's stable sort_by_key). -/
def sorted_conditions (flag : FeatureFlag) : List (Nat × FlagCondition) :=
  flag.get_conditions.enum.filter (fun ic => ic.2.variant.isSome)
    ++ flag.get_conditions.enum.filter (fun ic => !ic.2.variant.isSome)

/-- The body of get_match's `if is_match` branch: resolve the variant (a
condition override only when it names an existing variant, else the computed
variant) and attach the payload. -/
def matched_condition_result (m : MatcherCtx) (flag : FeatureFlag)
    (condition : FlagCondition)
    (hash_key_overrides : Option (List (String × String)))
    (highest_match : FeatureFlagMatchReason) (highest_index : Option Nat) :
    FeatureFlagMatch :=
  let variant :=
    match condition.variant with
    | some variant_override =>
        if flag.get_variants.any fun v => v.key == variant_override then
          some variant_override
        else
          get_matching_variant m flag hash_key_overrides
    | none => get_matching_variant m flag hash_key_overrides
  ⟨true, variant, highest_match, highest_index, get_matching_payload flag variant⟩

/-- get_match's condition loop, tracking the highest-priority reason and its
index; the SuperConditionValue check inside reproduces the source's `break`
that falls through to the no-match return. -/
def evaluate_conditions (m : MatcherCtx) (flag : FeatureFlag)
    (property_overrides : Option (List (String × JsonValue)))
    (hash_key_overrides : Option (List (String × String))) :
    List (Nat × FlagCondition) → FeatureFlagMatchReason → Option Nat →
    FeatureFlagMatch
  | [], highest_match, highest_index =>
      ⟨false, none, highest_match, highest_index, none⟩
  | (index, condition) :: rest, highest_match, highest_index =>
      let r := is_condition_match m flag condition property_overrides hash_key_overrides
      let hm := get_highest_priority_match_evaluation highest_match highest_index r.2 (some index)
      if r.1 then
        if hm.1 = .SuperConditionValue then
          ⟨false, none, hm.1, hm.2, none⟩
        else
          matched_condition_result m flag condition hash_key_overrides hm.1 hm.2
      else
        evaluate_conditions m flag property_overrides hash_key_overrides rest hm.1 hm.2

/-- get_match: empty identifier short-circuits to NoGroupType; then the super
condition, then the holdout condition, then the sorted ordinary conditions. -/
def get_match (m : MatcherCtx) (flag : FeatureFlag)
    (property_overrides : Option (List (String × JsonValue)))
    (hash_key_overrides : Option (List (String × String))) : FeatureFlagMatch :=
  if hashed_identifier m flag hash_key_overrides = "" then
    ⟨false, none, .NoGroupType, none, none⟩
  else if ((flag.filters.super_groups.map fun sg => !sg.isEmpty).getD false)
      && (is_super_condition_match m flag property_overrides hash_key_overrides).should_evaluate then
    let sce := is_super_condition_match m flag property_overrides hash_key_overrides
    ⟨sce.is_match, none, sce.reason, some 0, get_matching_payload flag none⟩
  else if ((flag.filters.holdout_groups.map fun hg => !hg.isEmpty).getD false)
      && (is_holdout_condition_match m flag).1 then
    let r := is_holdout_condition_match m flag
    ⟨true, r.2.1, r.2.2, none, get_matching_payload flag r.2.1⟩
  else
    evaluate_conditions m flag property_overrides hash_key_overrides
      (sorted_conditions flag) .NoConditionMatch none

/-- pow2Z is nonnegative. -/
lemma pow2Z_nonneg (e : Int) : 0 ≤ pow2Z e := by
  unfold pow2Z
  split
  · positivity
  · positivity

/-- Every binary64 value in the model is nonnegative. -/
lemma dyadicQ_nonneg (p : F64) : 0 ≤ dyadicQ p := by
  unfold dyadicQ
  exact mul_nonneg (by positivity) (pow2Z_nonneg _)

/-- get_hash is nonnegative (0 for an empty identifier, a rounded nonnegative
quotient otherwise). -/
lemma get_hash_nonneg (m : MatcherCtx) (flag : FeatureFlag) (salt : String)
    (hko : Option (List (String × String))) : 0 ≤ get_hash m flag salt hko := by
  by_cases h : hashed_identifier m flag hko = ""
  · simp [get_hash, h]
  · simp only [get_hash, h, if_false]
    exact dyadicQ_nonneg _

/-- pow2Z is the integer power of two over ℚ. -/
lemma pow2Z_eq_zpow (e : Int) : pow2Z e = (2 : ℚ) ^ e := by
  unfold pow2Z
  split
  · rename_i h
    push_cast
    rw [← zpow_natCast (2 : ℚ), Int.toNat_of_nonneg h]
  · rename_i h
    push_cast
    rw [one_div, ← zpow_natCast (2 : ℚ), Int.toNat_of_nonneg (by omega),
      ← zpow_neg, neg_neg]

/-- pow2Z is positive. -/
lemma pow2Z_pos (e : Int) : 0 < pow2Z e := by
  rw [pow2Z_eq_zpow]
  positivity

/-- dyadicQ of the zero representation. -/
lemma dyadicQ_zero : dyadicQ (0, 0) = 0 := by
  simp [dyadicQ]

/-- Shifting to the common exponent preserves the value. -/
lemma dyadicQ_shift (x : Int) (c : Int) (hc : c ≤ x) (n : Nat) :
    ((n <<< (x - c).toNat : Nat) : ℚ) * (2 : ℚ) ^ c = (n : ℚ) * (2 : ℚ) ^ x := by
  rw [Nat.shiftLeft_eq]
  push_cast
  rw [mul_assoc, ← zpow_natCast (2 : ℚ) ((x - c).toNat),
    Int.toNat_of_nonneg (by omega), ← zpow_add₀ (two_ne_zero : (2 : ℚ) ≠ 0)]
  congr 2
  omega

/-- f64lt decides the order of the denoted values. -/
lemma f64lt_iff (a b : F64) :
    f64lt a b = true ↔ dyadicQ a < dyadicQ b := by
  show (decide (a.1 <<< (a.2 - min a.2 b.2).toNat
      < b.1 <<< (b.2 - min a.2 b.2).toNat)) = true ↔ _
  rw [decide_eq_true_eq]
  unfold dyadicQ
  rw [pow2Z_eq_zpow, pow2Z_eq_zpow,
    ← dyadicQ_shift a.2 (min a.2 b.2) (min_le_left _ _) a.1,
    ← dyadicQ_shift b.2 (min a.2 b.2) (min_le_right _ _) b.1]
  have hc : (0 : ℚ) < (2 : ℚ) ^ (min a.2 b.2) := by positivity
  rw [mul_lt_mul_right hc]
  exact Nat.cast_lt.symm

/-- The binary64 cumulative sum the walk reaches after the whole variant
list, from a given starting accumulator. -/
def variantCumulative (l : List MultivariateFlagVariant) (acc : F64) : F64 :=
  l.foldl (fun cum v =>
    f64add cum (f64div (qToF64 v.rollout_percentage) (natToF64 100))) acc

/-- The cumulative variant walk finds a variant whenever the hash lies below
the final accumulated binary64 sum. -/
lemma variantWalk_covers (hash : F64) (l : List MultivariateFlagVariant) :
    ∀ acc : F64, dyadicQ acc ≤ dyadicQ hash →
      dyadicQ hash < dyadicQ (variantCumulative l acc) →
      (variantWalk hash acc l).isSome := by
  induction l with
  | nil =>
      intro acc hle hlt
      simp only [variantCumulative, List.foldl_nil] at hlt
      exact absurd hlt (not_lt.mpr hle)
  | cons v rest ih =>
      intro acc hle hlt
      simp only [variantWalk]
      split
      · simp
      · rename_i hnot
        refine ih _ (not_lt.mp fun hlt' => hnot ((f64lt_iff _ _).mpr hlt')) ?_
        simpa only [variantCumulative, List.foldl_cons] using hlt

/-- get_hash is the value get_hash_f64 denotes. -/
lemma get_hash_eq_f64 (m : MatcherCtx) (flag : FeatureFlag) (salt : String)
    (hko : Option (List (String × String))) :
    get_hash m flag salt hko = dyadicQ (get_hash_f64 m flag salt hko) := by
  by_cases h : hashed_identifier m flag hko = ""
  · simp [get_hash, get_hash_f64, h, dyadicQ]
  · simp only [get_hash, get_hash_f64, h, if_false]
    rfl

/-- C2 counterexample: with variant percentages [30, 30, 30, 10] — summing
to exactly 100 — the binary64 running sum ends at 1 − 2⁻⁵³, the largest
double below 1.0, and the hash pipeline produces exactly that value (for
any identifier whose 60-bit digest truncation is 2⁶⁰ − 100); such an
identifier matches the flag (a 100% rollout check passes outright,
independently of the variant hash) yet the variant walk returns none. -/
theorem c2_variant_coverage_counterexample :
    (([⟨"a", 30⟩, ⟨"b", 30⟩, ⟨"c", 30⟩, ⟨"d", 10⟩] :
        List MultivariateFlagVariant).map fun v => v.rollout_percentage).sum = 100
    ∧ variantCumulative [⟨"a", 30⟩, ⟨"b", 30⟩, ⟨"c", 30⟩, ⟨"d", 10⟩] (0, 0)
      = (9007199254740991, -53)
    ∧ f64div (natToF64 (2 ^ 60 - 100)) (natToF64 LONG_SCALE)
      = (9007199254740991, -53)
    ∧ (0 : ℚ) ≤ dyadicQ (9007199254740991, -53)
    ∧ dyadicQ (9007199254740991, -53) < 1
    ∧ variantWalk (9007199254740991, -53) (0, 0)
        [⟨"a", 30⟩, ⟨"b", 30⟩, ⟨"c", 30⟩, ⟨"d", 10⟩] = none := by
  refine ⟨by norm_num, by decide, by decide, dyadicQ_nonneg _, ?_, by decide⟩
  norm_num [dyadicQ, pow2Z, show ((53 : Int).toNat = 53) from rfl]

/-- C2 (amended): get_matching_variant walks the variants in order, the
running sum accumulating percentage/100 in binary64, and returns the first
variant whose running sum exceeds the hash; consequently every identifier
whose variant hash lies below the final accumulated sum is assigned some
variant.  With percentages summing to exactly 100, that sum is 1.0 — or,
when the stepwise roundings fall short as for [30, 30, 30, 10], the
largest double below 1.0, so a maximal sub-1 hash can escape assignment. -/
theorem c2_variant_coverage_f64 (m : MatcherCtx) (flag : FeatureFlag)
    (hko : Option (List (String × String)))
    (hlt : dyadicQ (get_hash_f64 m flag "variant" hko)
        < dyadicQ (variantCumulative flag.get_variants (0, 0))) :
    (get_matching_variant m flag hko).isSome := by
  unfold get_matching_variant
  refine variantWalk_covers _ _ (0, 0) ?_ hlt
  rw [dyadicQ_zero]
  exact dyadicQ_nonneg _

/-- A concrete multivariate flag for the C2 witness: two variants at 50/50. -/
def c2flag : FeatureFlag :=
  ⟨"f", true, false, false,
    ⟨[], some [⟨"a", 50⟩, ⟨"b", 50⟩], none, [], none, none⟩⟩

/-- A concrete matcher context for the C2 witness. -/
def c2ctx : MatcherCtx :=
  ⟨"u", [], [], [], fun _ _ => false, fun _ _ => false⟩

set_option maxRecDepth 10000 in
/-- Witness for c2_variant_coverage_f64: at the concrete 50/50 flag the
accumulated binary64 sum is exactly 1.0 and the concrete variant hash,
about 0.4443, lies below it, so a variant is assigned. -/
theorem c2_variant_coverage_f64_witness :
    (get_matching_variant c2ctx c2flag none).isSome := by
  refine c2_variant_coverage_f64 c2ctx c2flag none ?_
  have h1 : get_hash_f64 c2ctx c2flag "variant" none
      = (8003900224574922, -54) := by decide
  have h2 : variantCumulative c2flag.get_variants (0, 0)
      = (4503599627370496, -52) := by decide
  rw [h1, h2]
  exact (f64lt_iff _ _).mp (by decide)

/-- C7: holdout semantics.  With a non-empty holdout_groups list: a first
condition bearing property filters fails closed to NoConditionMatch; with no
property filters and either no rollout percentage or holdout hash ≤
percentage/100, the holdout matches with reason HoldoutConditionValue and
variant = condition override ∥ computed variant ∥ "holdout", and get_match
returns that as a positive match (when no super group diverts evaluation
and the identifier is non-empty). -/
theorem c7_holdout_condition (m : MatcherCtx) (flag : FeatureFlag)
    (condition : FlagCondition) (rest : List FlagCondition)
    (o : Option (List (String × JsonValue)))
    (hko : Option (List (String × String)))
    (hh : flag.filters.holdout_groups = some (condition :: rest)) :
    (∀ ps, condition.properties = some ps → ps ≠ [] →
      is_holdout_condition_match m flag = (false, none, .NoConditionMatch))
    ∧ ((condition.properties = none ∨ condition.properties = some []) →
      (condition.rollout_percentage = none ∨
        ∃ p, condition.rollout_percentage = some p ∧
          get_holdout_hash m flag none ≤ p / 100) →
      is_holdout_condition_match m flag
        = (true,
           some (condition.variant.getD ((get_matching_variant m flag none).getD "holdout")),
           .HoldoutConditionValue)
      ∧ (flag.filters.super_groups = none →
          hashed_identifier m flag hko ≠ "" →
          get_match m flag o hko
            = ⟨true,
               some (condition.variant.getD ((get_matching_variant m flag none).getD "holdout")),
               .HoldoutConditionValue, none,
               get_matching_payload flag
                 (some (condition.variant.getD
                   ((get_matching_variant m flag none).getD "holdout")))⟩)) := by
  have hvariant : holdout_selected_variant m flag condition
      = condition.variant.getD ((get_matching_variant m flag none).getD "holdout") := by
    unfold holdout_selected_variant
    cases condition.variant <;> simp
  constructor
  · intro ps hps hne
    unfold is_holdout_condition_match
    rw [hh]
    simp [hps, List.isEmpty_iff, hne]
  · intro hprops hroll
    have hmatch : is_holdout_condition_match m flag
        = (true, some (holdout_selected_variant m flag condition),
           .HoldoutConditionValue) := by
      unfold is_holdout_condition_match
      rw [hh]
      have h1 : (condition.properties.map fun ps => !ps.isEmpty).getD false = false := by
        rcases hprops with h | h <;> simp [h]
      have h2 : (condition.rollout_percentage.map fun percentage =>
          decide (percentage / 100 < get_holdout_hash m flag none)).getD false = false := by
        rcases hroll with h | ⟨p, hp, hle⟩
        · simp [h]
        · simp [hp, decide_eq_false_iff_not, not_lt, hle]
      simp [h1, h2]
    refine ⟨hvariant ▸ hmatch, fun hsg hne => ?_⟩
    unfold get_match
    rw [if_neg hne]
    have hsuper : (((flag.filters.super_groups.map fun sg => !sg.isEmpty).getD false)
        && (is_super_condition_match m flag o hko).should_evaluate) = false := by
      simp [hsg]
    rw [if_neg (by simp [hsuper]), if_pos (by rw [hh, hmatch]; simp)]
    rw [hmatch, hvariant]

/-- Matcher context for the C7 witness. -/
def c7ctx : MatcherCtx :=
  ⟨"u", [], [], [], fun _ _ => false, fun _ _ => false⟩

/-- C7 witness flag A: first holdout condition bears a property filter. -/
def c7flagA : FeatureFlag :=
  ⟨"f", true, false, false,
    ⟨[], none, none, [], none, some [⟨some [⟨"email", "person", none, none⟩], none, none⟩]⟩⟩

/-- C7 witness flag B: property-free holdout with variant override "h". -/
def c7flagB : FeatureFlag :=
  ⟨"f", true, false, false,
    ⟨[], none, none, [], none, some [⟨none, none, some "h"⟩]⟩⟩

/-- Witness for c7_holdout_condition at concrete flags: filters on the
holdout fail closed, and a property-free, percentage-free holdout with an
override matches through get_match. -/
theorem c7_holdout_condition_witness :
    is_holdout_condition_match c7ctx c7flagA = (false, none, .NoConditionMatch)
    ∧ get_match c7ctx c7flagB none none
      = ⟨true, some "h", .HoldoutConditionValue, none, none⟩ := by
  constructor
  · exact (c7_holdout_condition c7ctx c7flagA
      ⟨some [⟨"email", "person", none, none⟩], none, none⟩ [] none none rfl).1
      [⟨"email", "person", none, none⟩] rfl (by simp)
  · have h := ((c7_holdout_condition c7ctx c7flagB
        ⟨none, none, some "h"⟩ [] none none rfl).2
        (Or.inl rfl) (Or.inl rfl)).2 rfl (by decide)
    exact h

/-- The tracker of get_match's loop: fold the per-condition (reason, index)
observations through get_highest_priority_match_evaluation. -/
def trackerFold (init : FeatureFlagMatchReason × Option Nat)
    (obs : List (FeatureFlagMatchReason × Option Nat)) :
    FeatureFlagMatchReason × Option Nat :=
  obs.foldl (fun cur new =>
    get_highest_priority_match_evaluation cur.1 cur.2 new.1 new.2) init

/-- The (reason, original index) observations get_match's loop makes, in
evaluation order. -/
def conditionObservations (m : MatcherCtx) (flag : FeatureFlag)
    (o : Option (List (String × JsonValue)))
    (hko : Option (List (String × String))) :
    List (FeatureFlagMatchReason × Option Nat) :=
  (sorted_conditions flag).map fun ic =>
    ((is_condition_match m flag ic.2 o hko).2, some ic.1)

/-- One tracker step realises max on ranks. -/
lemma tracker_step_rank (c n : FeatureFlagMatchReason) (ci ni : Option Nat) :
    reasonRank (get_highest_priority_match_evaluation c ci n ni).1
      = max (reasonRank c) (reasonRank n) := by
  unfold get_highest_priority_match_evaluation reasonLe
  rw [Nat.max_def]
  by_cases h : reasonRank c ≤ reasonRank n <;> simp [h]

/-- The tracker fold computes the running maximum of the reason ranks. -/
lemma trackerFold_rank (obs : List (FeatureFlagMatchReason × Option Nat)) :
    ∀ init, reasonRank (trackerFold init obs).1
      = obs.foldl (fun a r => max a (reasonRank r.1)) (reasonRank init.1) := by
  induction obs with
  | nil => intro init; rfl
  | cons x rest ih =>
      intro init
      unfold trackerFold at ih ⊢
      rw [List.foldl_cons, List.foldl_cons, ih, tracker_step_rank]

/-- foldl max dominates its initial value. -/
lemma foldl_max_init (l : List Nat) : ∀ a : Nat, a ≤ l.foldl max a := by
  induction l with
  | nil => intro a; exact le_refl a
  | cons x rest ih =>
      intro a
      exact le_trans (le_max_left a x) (ih (max a x))

/-- foldl max dominates every element. -/
lemma foldl_max_mem (l : List Nat) : ∀ a x, x ∈ l → x ≤ l.foldl max a := by
  induction l with
  | nil => intro a x hx; cases hx
  | cons y rest ih =>
      intro a x hx
      rcases List.mem_cons.mp hx with h | h
      · subst h
        exact le_trans (le_max_right a x) (foldl_max_init rest (max a x))
      · exact ih (max a y) x h

/-- The condition loop, when no condition matches, returns the tracked fold. -/
lemma evaluate_conditions_no_match (m : MatcherCtx) (flag : FeatureFlag)
    (o : Option (List (String × JsonValue)))
    (hko : Option (List (String × String))) :
    ∀ (conds : List (Nat × FlagCondition)) (hm : FeatureFlagMatchReason)
      (hi : Option Nat),
      (∀ ic ∈ conds, (is_condition_match m flag ic.2 o hko).1 = false) →
      evaluate_conditions m flag o hko conds hm hi
        = ⟨false, none,
           (trackerFold (hm, hi) (conds.map fun ic =>
             ((is_condition_match m flag ic.2 o hko).2, some ic.1))).1,
           (trackerFold (hm, hi) (conds.map fun ic =>
             ((is_condition_match m flag ic.2 o hko).2, some ic.1))).2,
           none⟩ := by
  intro conds
  induction conds with
  | nil => intro hm hi _; rfl
  | cons x rest ih =>
      intro hm hi hall
      obtain ⟨index, condition⟩ := x
      have hfalse := hall (index, condition) (by simp)
      simp only [evaluate_conditions, hfalse, Bool.false_eq_true, if_false]
      rw [ih _ _ fun ic hic => hall ic (List.mem_cons_of_mem _ hic)]
      simp only [List.map_cons, trackerFold, List.foldl_cons]

/-- C9: the (reason, condition_index) tracker.  (a) one step keeps the
higher-priority reason under the ascending rank order, replacing ties with
the newer reason and index; (b) the fold over the loop's observations
computes exactly the running maximum of ranks, which dominates the initial
reason and every observation; (c) when the identifier is non-empty, neither
the super nor the holdout branch fires, and no condition matches, get_match
returns matches = false carrying the tracked reason and index. -/
theorem c9_reason_priority_tracker (m : MatcherCtx) (flag : FeatureFlag)
    (o : Option (List (String × JsonValue)))
    (hko : Option (List (String × String)))
    (c n : FeatureFlagMatchReason) (ci ni : Option Nat) :
    (reasonRank c ≤ reasonRank n →
      get_highest_priority_match_evaluation c ci n ni = (n, ni))
    ∧ (reasonRank n < reasonRank c →
      get_highest_priority_match_evaluation c ci n ni = (c, ci))
    ∧ (∀ (obs : List (FeatureFlagMatchReason × Option Nat))
        (init : FeatureFlagMatchReason × Option Nat),
        reasonRank (trackerFold init obs).1
          = obs.foldl (fun a r => max a (reasonRank r.1)) (reasonRank init.1)
        ∧ reasonRank init.1 ≤ reasonRank (trackerFold init obs).1
        ∧ ∀ p ∈ obs, reasonRank p.1 ≤ reasonRank (trackerFold init obs).1)
    ∧ (hashed_identifier m flag hko ≠ "" →
      (((flag.filters.super_groups.map fun sg => !sg.isEmpty).getD false)
        && (is_super_condition_match m flag o hko).should_evaluate) = false →
      (((flag.filters.holdout_groups.map fun hg => !hg.isEmpty).getD false)
        && (is_holdout_condition_match m flag).1) = false →
      (∀ ic ∈ sorted_conditions flag,
        (is_condition_match m flag ic.2 o hko).1 = false) →
      get_match m flag o hko
        = ⟨false, none,
           (trackerFold (.NoConditionMatch, none) (conditionObservations m flag o hko)).1,
           (trackerFold (.NoConditionMatch, none) (conditionObservations m flag o hko)).2,
           none⟩) := by
  refine ⟨fun h => ?_, fun h => ?_, fun obs init => ⟨trackerFold_rank obs init, ?_, ?_⟩,
    fun hne hsup hhold hcond => ?_⟩
  · unfold get_highest_priority_match_evaluation reasonLe
    simp [h]
  · unfold get_highest_priority_match_evaluation reasonLe
    simp [Nat.not_le.mpr h]
  · rw [trackerFold_rank,
      ← List.foldl_map (fun r : FeatureFlagMatchReason × Option Nat => reasonRank r.1) max]
    exact foldl_max_init _ _
  · intro p hp
    rw [trackerFold_rank,
      ← List.foldl_map (fun r : FeatureFlagMatchReason × Option Nat => reasonRank r.1) max]
    exact foldl_max_mem _ _ _ (List.mem_map_of_mem _ hp)
  · unfold get_match
    rw [if_neg hne, if_neg (by simp [hsup]), if_neg (by simp [hhold])]
    exact evaluate_conditions_no_match m flag o hko (sorted_conditions flag)
      .NoConditionMatch none hcond

/-- Matcher context for the C9 witness (the property oracle rejects all). -/
def c9ctx : MatcherCtx :=
  ⟨"u", [], [], [], fun _ _ => false, fun _ _ => false⟩

/-- C9 witness flag: one condition whose property filter cannot match. -/
def c9flag : FeatureFlag :=
  ⟨"f", true, false, false,
    ⟨[⟨some [⟨"email", "person", none, none⟩], some 0, none⟩],
      none, none, [], none, none⟩⟩

/-- Witness for c9_reason_priority_tracker at a concrete input: the single
condition fails with NoConditionMatch, and get_match returns that reason
with the condition's original index. -/
theorem c9_reason_priority_tracker_witness :
    get_match c9ctx c9flag none none
      = ⟨false, none, .NoConditionMatch, some 0, none⟩ := by
  have h := (c9_reason_priority_tracker c9ctx c9flag none none
      .NoConditionMatch .NoConditionMatch none none).2.2.2
      (by decide) (by decide) (by decide) (by decide)
  exact h.trans (by decide)

/- ----------------------------------------------------------------- -/
/- BatchEvaluator: evaluate_flags_with_overrides.  The per-flag       -/
/- evaluations and the pre-warm step are oracles (their outcomes),    -/
/- the two passes and the response assembly are transcribed.          -/
/- ----------------------------------------------------------------- -/

/-- FlagDetails (crate::api::types, not under src/), reduced to the two ways
flag_matching.rs builds it: FlagDetails::create from a match, and
FlagDetails::create_error from a reason label. -/
inductive FlagDetails where
  | value (fm : FeatureFlagMatch) : FlagDetails
  | error (reason : String) : FlagDetails
deriving DecidableEq, Repr

/-- Modelled from the spec: parse_exception_for_prometheus_label
(crate::metrics::utils, not under src/) — "every evaluation error bumps a
Prometheus counter labelled with the kind string" (§6), so each error kind
gets a fixed label. -/
def errorLabel : FlagError → String
  | .databaseUnavailable => "database_unavailable"
  | .noGroupTypeMappings => "no_group_type_mappings"
  | .databaseError _ => "database_error"
  | .timeoutError => "timeout"
  | .personNotFound => "person_not_found"
  | .cohortNotFound _ => "cohort_not_found"
  | .cohortDependencyCycle _ => "cohort_dependency_cycle"
  | .cohortFiltersParsingError => "cohort_filters_parsing_error"

/-- HashMap::insert on the association-list model: replace the existing
entry for the key or append a new one. -/
def insertEntry (entries : List (String × FlagDetails)) (k : String)
    (v : FlagDetails) : List (String × FlagDetails) :=
  match entries with
  | [] => [(k, v)]
  | (k', v') :: rest =>
      if k' = k then (k, v) :: rest else (k', v') :: insertEntry rest k v

/-- The per-request outcomes the batch loop consumes:
match_flag_with_property_overrides (pass 1, Ok None = needs DB),
prepare_flag_evaluation_state (pre-warm), and get_match (pass 2). -/
structure BatchOracles where
  pass1 : FeatureFlag → Except FlagError (Option FeatureFlagMatch)
  prewarm : Except FlagError Unit
  pass2 : FeatureFlag → Except FlagError FeatureFlagMatch

/-- FlagsResponse: the batch error flag and the flag-details map. -/
structure FlagsResponse where
  errors_while_computing_flags : Bool
  flags : List (String × FlagDetails)
deriving DecidableEq, Repr

/-- Step 1 of evaluate_flags_with_overrides: skip inactive/deleted flags,
record successful override-only matches, queue Ok(None) flags for the DB
pass, and record only the batch error flag on a pass-1 error. -/
def pass1Loop (o : BatchOracles) :
    List FeatureFlag → Bool × List (String × FlagDetails) × List FeatureFlag →
    Bool × List (String × FlagDetails) × List FeatureFlag
  | [], st => st
  | flag :: rest, (errs, dm, need) =>
      if !flag.active || flag.deleted then
        pass1Loop o rest (errs, dm, need)
      else
        match o.pass1 flag with
        | .ok (some fm) =>
            pass1Loop o rest (errs, insertEntry dm flag.key (.value fm), need)
        | .ok none => pass1Loop o rest (errs, dm, need ++ [flag])
        | .error _ => pass1Loop o rest (true, dm, need)

/-- Step 3 of evaluate_flags_with_overrides: evaluate each deferred flag,
recording an error entry and the batch error flag on failure, without
aborting the loop. -/
def pass2Loop (o : BatchOracles) :
    List FeatureFlag → Bool × List (String × FlagDetails) →
    Bool × List (String × FlagDetails)
  | [], st => st
  | flag :: rest, (errs, dm) =>
      match o.pass2 flag with
      | .ok fm => pass2Loop o rest (errs, insertEntry dm flag.key (.value fm))
      | .error e =>
          pass2Loop o rest (true, insertEntry dm flag.key (.error (errorLabel e)))

/-- evaluate_flags_with_overrides: pass 1, then (when flags need DB data)
pre-warm — whose failure marks every deferred flag with the same error
reason — then pass 2. -/
def evaluate_flags_with_overrides (o : BatchOracles)
    (feature_flags : List FeatureFlag) : FlagsResponse :=
  let st := pass1Loop o feature_flags (false, [], [])
  if st.2.2.isEmpty then ⟨st.1, st.2.1⟩
  else
    match o.prewarm with
    | .error e =>
        ⟨true, st.2.2.foldl
          (fun acc flag => insertEntry acc flag.key (.error (errorLabel e))) st.2.1⟩
    | .ok _ =>
        ⟨(pass2Loop o st.2.2 (st.1, st.2.1)).1,
         (pass2Loop o st.2.2 (st.1, st.2.1)).2⟩

/-- Lookup after inserting the same key. -/
lemma insertEntry_lookup_self (entries : List (String × FlagDetails))
    (k : String) (v : FlagDetails) : (insertEntry entries k v).lookup k = some v := by
  induction entries with
  | nil => simp [insertEntry]
  | cons e rest ih =>
      obtain ⟨k', v'⟩ := e
      by_cases h : k' = k
      · simp [insertEntry, h]
      · simp [insertEntry, h, List.lookup, ih, beq_false_of_ne (Ne.symm h)]

/-- Lookup after inserting a different key. -/
lemma insertEntry_lookup_ne (entries : List (String × FlagDetails))
    (k' k : String) (v : FlagDetails) (h : k' ≠ k) :
    (insertEntry entries k' v).lookup k = entries.lookup k := by
  induction entries with
  | nil => simp [insertEntry, List.lookup, beq_false_of_ne (Ne.symm h)]
  | cons e rest ih =>
      obtain ⟨k0, v0⟩ := e
      by_cases h0 : k0 = k'
      · subst h0
        simp [insertEntry, List.lookup, beq_false_of_ne (Ne.symm h)]
      · simp only [insertEntry, h0, if_false]
        by_cases hk : k0 = k
        · subst hk; simp [List.lookup]
        · simp [List.lookup, beq_false_of_ne (Ne.symm hk), ih]

/-- pass1Loop splits over list append. -/
lemma pass1Loop_append (o : BatchOracles) (l1 : List FeatureFlag) :
    ∀ (l2 : List FeatureFlag) st,
      pass1Loop o (l1 ++ l2) st = pass1Loop o l2 (pass1Loop o l1 st) := by
  induction l1 with
  | nil => intro l2 st; rfl
  | cons f rest ih =>
      intro l2 st
      obtain ⟨errs, dm, need⟩ := st
      simp only [List.cons_append, pass1Loop]
      by_cases hskip : (!f.active || f.deleted) = true
      · simp only [hskip, if_true]; exact ih l2 _
      · simp only [hskip, if_false]
        cases hp : o.pass1 f with
        | ok v => cases v <;> exact ih l2 _
        | error e => exact ih l2 _

/-- The error flag is threaded monotonically through pass 1 and does not
influence the entries or the deferred list. -/
lemma pass1Loop_errs_or (o : BatchOracles) (l : List FeatureFlag) :
    ∀ (b : Bool) dm need,
      pass1Loop o l (b, dm, need)
        = (b || (pass1Loop o l (false, dm, need)).1,
           (pass1Loop o l (false, dm, need)).2) := by
  induction l with
  | nil => intro b dm need; simp [pass1Loop]
  | cons f rest ih =>
      intro b dm need
      simp only [pass1Loop]
      by_cases hskip : (!f.active || f.deleted) = true
      · simp only [hskip, if_true]; exact ih b dm need
      · simp only [hskip, if_false]
        cases hp : o.pass1 f with
        | ok v =>
            cases v with
            | some fm => exact ih b _ need
            | none => exact ih b dm _
        | error e =>
            dsimp only
            rw [ih true dm need, ih b dm need]
            simp

/-- The same for pass 2. -/
lemma pass2Loop_errs_or (o : BatchOracles) (l : List FeatureFlag) :
    ∀ (b : Bool) dm,
      pass2Loop o l (b, dm)
        = (b || (pass2Loop o l (false, dm)).1, (pass2Loop o l (false, dm)).2) := by
  induction l with
  | nil => intro b dm; simp [pass2Loop]
  | cons f rest ih =>
      intro b dm
      simp only [pass2Loop]
      cases hp : o.pass2 f with
      | ok fm => exact ih b _
      | error e =>
          dsimp only
          rw [ih true (insertEntry dm f.key (.error (errorLabel e)))]
          simp

/-- Pass 1 introduces no entry and defers no flag for a key no flag has. -/
lemma pass1Loop_keys (o : BatchOracles) (k : String) :
    ∀ (l : List FeatureFlag) (errs : Bool) dm need,
      (∀ g ∈ l, g.key ≠ k) → dm.lookup k = none → (∀ g ∈ need, g.key ≠ k) →
      ((pass1Loop o l (errs, dm, need)).2.1.lookup k = none
        ∧ ∀ g ∈ (pass1Loop o l (errs, dm, need)).2.2, g.key ≠ k) := by
  intro l
  induction l with
  | nil => intro errs dm need _ hdm hneed; exact ⟨hdm, hneed⟩
  | cons f rest ih =>
      intro errs dm need hl hdm hneed
      have hfk : f.key ≠ k := hl f (by simp)
      have hrest : ∀ g ∈ rest, g.key ≠ k := fun g hg => hl g (List.mem_cons_of_mem _ hg)
      simp only [pass1Loop]
      by_cases hskip : (!f.active || f.deleted) = true
      · simp only [hskip, if_true]; exact ih errs dm need hrest hdm hneed
      · simp only [hskip, if_false]
        cases hp : o.pass1 f with
        | ok v =>
            cases v with
            | some fm =>
                dsimp only
                refine ih errs _ need hrest ?_ hneed
                rw [insertEntry_lookup_ne _ _ _ _ hfk]
                exact hdm
            | none =>
                dsimp only
                refine ih errs dm _ hrest hdm ?_
                intro g hg
                rcases List.mem_append.mp hg with h | h
                · exact hneed g h
                · simp only [List.mem_singleton] at h; subst h; exact hfk
        | error e => exact ih true dm need hrest hdm hneed

/-- Pass 2 introduces no entry for a key no deferred flag has. -/
lemma pass2Loop_keys (o : BatchOracles) (k : String) :
    ∀ (l : List FeatureFlag) (errs : Bool) dm,
      (∀ g ∈ l, g.key ≠ k) → dm.lookup k = none →
      (pass2Loop o l (errs, dm)).2.lookup k = none := by
  intro l
  induction l with
  | nil => intro errs dm _ hdm; exact hdm
  | cons f rest ih =>
      intro errs dm hl hdm
      have hfk : f.key ≠ k := hl f (by simp)
      have hrest : ∀ g ∈ rest, g.key ≠ k := fun g hg => hl g (List.mem_cons_of_mem _ hg)
      simp only [pass2Loop]
      cases hp : o.pass2 f with
      | ok fm =>
          dsimp only
          refine ih errs _ hrest ?_
          rw [insertEntry_lookup_ne _ _ _ _ hfk]; exact hdm
      | error e =>
          dsimp only
          refine ih true _ hrest ?_
          rw [insertEntry_lookup_ne _ _ _ _ hfk]; exact hdm

/-- The pre-warm failure fold introduces no entry for a key no deferred flag
has. -/
lemma foldl_insert_keys (e : FlagError) (k : String) :
    ∀ (need : List FeatureFlag) dm,
      (∀ g ∈ need, g.key ≠ k) → dm.lookup k = none →
      (need.foldl (fun acc flag =>
        insertEntry acc flag.key (.error (errorLabel e))) dm).lookup k = none := by
  intro need
  induction need with
  | nil => intro dm _ hdm; exact hdm
  | cons f rest ih =>
      intro dm hl hdm
      rw [List.foldl_cons]
      refine ih _ (fun g hg => hl g (List.mem_cons_of_mem _ hg)) ?_
      rw [insertEntry_lookup_ne _ _ _ _ (hl f (by simp))]
      exact hdm

/-- The response has no entry under a key no input flag has. -/
lemma evaluate_lookup_none (o : BatchOracles) (flags : List FeatureFlag)
    (k : String) (h : ∀ g ∈ flags, g.key ≠ k) :
    (evaluate_flags_with_overrides o flags).flags.lookup k = none := by
  have h1 := pass1Loop_keys o k flags false [] [] h rfl (by simp)
  unfold evaluate_flags_with_overrides
  rcases hst : pass1Loop o flags (false, [], []) with ⟨errs, dm, need⟩
  rw [hst] at h1
  dsimp only at h1 ⊢
  by_cases hne : need.isEmpty
  · simp only [hne, if_true]
    exact h1.1
  · simp only [hne, if_false]
    cases o.prewarm with
    | error e => exact foldl_insert_keys e k need dm h1.2 h1.1
    | ok u => exact pass2Loop_keys o k need errs dm h1.2 h1.1

/-- C10: an inactive or deleted flag is silently skipped — the batch result
is identical to the result on the list with the flag removed; in particular
(when no other flag shares its key) the response has no entry for its key,
no error entry, and the batch error flag is unchanged on its account. -/
theorem c10_inactive_deleted_skipped (o : BatchOracles)
    (l1 l2 : List FeatureFlag) (f : FeatureFlag)
    (hf : f.active = false ∨ f.deleted = true) :
    evaluate_flags_with_overrides o (l1 ++ f :: l2)
      = evaluate_flags_with_overrides o (l1 ++ l2)
    ∧ ((∀ g ∈ l1 ++ l2, g.key ≠ f.key) →
      (evaluate_flags_with_overrides o (l1 ++ f :: l2)).flags.lookup f.key = none) := by
  have hskip : (!f.active || f.deleted) = true := by
    rcases hf with h | h <;> simp [h]
  have hstep : ∀ st, pass1Loop o (f :: l2) st = pass1Loop o l2 st := by
    intro st
    obtain ⟨errs, dm, need⟩ := st
    simp only [pass1Loop, hskip, if_true]
  have hpass : pass1Loop o (l1 ++ f :: l2) (false, [], [])
      = pass1Loop o (l1 ++ l2) (false, [], []) := by
    rw [pass1Loop_append, pass1Loop_append, hstep]
  have heq : evaluate_flags_with_overrides o (l1 ++ f :: l2)
      = evaluate_flags_with_overrides o (l1 ++ l2) := by
    unfold evaluate_flags_with_overrides
    rw [hpass]
  exact ⟨heq, fun hk => heq ▸ evaluate_lookup_none o (l1 ++ l2) f.key hk⟩

/-- Oracles for the C10 witness. -/
def c10oracles : BatchOracles :=
  ⟨fun _ => .ok (some ⟨true, none, .ConditionMatch, some 0, none⟩), .ok (), 
   fun _ => .error .databaseUnavailable⟩

/-- An inactive flag for the C10 witness. -/
def c10flagOff : FeatureFlag :=
  ⟨"off", false, false, false, ⟨[], none, none, [], none, none⟩⟩

/-- An active flag for the C10 witness. -/
def c10flagOn : FeatureFlag :=
  ⟨"on", true, false, false, ⟨[], none, none, [], none, none⟩⟩

/-- Witness for c10_inactive_deleted_skipped: with one active and one
inactive flag, the batch result equals the singleton run and carries no
entry for the inactive key. -/
theorem c10_inactive_deleted_skipped_witness :
    evaluate_flags_with_overrides c10oracles [c10flagOn, c10flagOff]
      = evaluate_flags_with_overrides c10oracles [c10flagOn]
    ∧ (evaluate_flags_with_overrides c10oracles [c10flagOn, c10flagOff]).flags.lookup "off"
      = none := by
  have h := c10_inactive_deleted_skipped c10oracles [c10flagOn] [] c10flagOff
    (Or.inl rfl)
  exact ⟨h.1, h.2 (by decide)⟩

/-- Pass 2 preserves an existing entry whose key no remaining flag has. -/
lemma pass2Loop_preserve (o : BatchOracles) (k : String) :
    ∀ (l : List FeatureFlag) (errs : Bool) dm,
      (∀ g ∈ l, g.key ≠ k) →
      (pass2Loop o l (errs, dm)).2.lookup k = dm.lookup k := by
  intro l
  induction l with
  | nil => intro errs dm _; rfl
  | cons f rest ih =>
      intro errs dm hl
      have hfk : f.key ≠ k := hl f (by simp)
      have hrest : ∀ g ∈ rest, g.key ≠ k := fun g hg => hl g (List.mem_cons_of_mem _ hg)
      simp only [pass2Loop]
      cases hp : o.pass2 f with
      | ok fm =>
          dsimp only
          rw [ih errs _ hrest, insertEntry_lookup_ne _ _ _ _ hfk]
      | error e =>
          dsimp only
          rw [ih true _ hrest, insertEntry_lookup_ne _ _ _ _ hfk]

/-- The pre-warm failure fold preserves entries under keys it does not touch. -/
lemma foldl_insert_preserve (e : FlagError) (k : String) :
    ∀ (need : List FeatureFlag) dm,
      (∀ g ∈ need, g.key ≠ k) →
      (need.foldl (fun acc flag =>
        insertEntry acc flag.key (.error (errorLabel e))) dm).lookup k
        = dm.lookup k := by
  intro need
  induction need with
  | nil => intro dm _; rfl
  | cons f rest ih =>
      intro dm hl
      rw [List.foldl_cons, ih _ (fun g hg => hl g (List.mem_cons_of_mem _ hg)),
        insertEntry_lookup_ne _ _ _ _ (hl f (by simp))]

/-- After the pre-warm failure fold, every deferred key maps to the same
error reason. -/
lemma foldl_insert_mem (e : FlagError) (k : String) :
    ∀ (need : List FeatureFlag) dm,
      (∃ g ∈ need, g.key = k) →
      (need.foldl (fun acc flag =>
        insertEntry acc flag.key (.error (errorLabel e))) dm).lookup k
        = some (.error (errorLabel e)) := by
  intro need
  induction need with
  | nil => intro dm h; exact absurd h (by simp)
  | cons f rest ih =>
      intro dm hex
      by_cases hrest : ∃ g ∈ rest, g.key = k
      · rw [List.foldl_cons]
        exact ih _ hrest
      · have hf : f.key = k := by
          rcases hex with ⟨g, hg, hk⟩
          rcases List.mem_cons.mp hg with h | h
          · subst h; exact hk
          · exact absurd ⟨g, h, hk⟩ hrest
        rw [List.foldl_cons,
          foldl_insert_preserve e k rest _
            (fun g hg hk' => hrest ⟨g, hg, hk'⟩),
          hf, insertEntry_lookup_self]

/-- C8 counterexample: an error in the overrides-only pass sets the batch
error flag but creates NO entry for the failing flag — the response's flags
map is empty, contradicting the claim that either pass produces an error
entry. -/
theorem c8_pass1_error_counterexample :
    (evaluate_flags_with_overrides
        ⟨fun _ => .error .databaseUnavailable, .ok (), fun _ => .ok ⟨true, none, .ConditionMatch, none, none⟩⟩
        [⟨"f", true, false, false, ⟨[], none, none, [], none, none⟩⟩]).errors_while_computing_flags
      = true
    ∧ (evaluate_flags_with_overrides
        ⟨fun _ => .error .databaseUnavailable, .ok (), fun _ => .ok ⟨true, none, .ConditionMatch, none, none⟩⟩
        [⟨"f", true, false, false, ⟨[], none, none, [], none, none⟩⟩]).flags.lookup "f"
      = none
    ∧ (evaluate_flags_with_overrides
        ⟨fun _ => .error .databaseUnavailable, .ok (), fun _ => .ok ⟨true, none, .ConditionMatch, none, none⟩⟩
        [⟨"f", true, false, false, ⟨[], none, none, [], none, none⟩⟩]).flags
      = [] := by
  refine ⟨rfl, rfl, rfl⟩

/-- C8 (amended): (A) an error in the overrides-only pass sets the batch
error flag and omits the flag from the response without aborting the other
flags; (B) an error in the DB-backed pass records an error entry for that
flag, sets the batch error flag, and continues with the remaining flags;
(C) a pre-warm failure marks every deferred flag with that same error
reason and sets the batch error flag. -/
theorem c8_single_flag_error_isolation (o : BatchOracles) (f : FeatureFlag)
    (l1 l2 rest flags : List FeatureFlag) (e : FlagError) (errs : Bool)
    (dm : List (String × FlagDetails)) :
    (o.pass1 f = .error e → f.active = true → f.deleted = false →
      (evaluate_flags_with_overrides o (l1 ++ f :: l2)).flags
        = (evaluate_flags_with_overrides o (l1 ++ l2)).flags
      ∧ (evaluate_flags_with_overrides o (l1 ++ f :: l2)).errors_while_computing_flags
        = true)
    ∧ (o.pass2 f = .error e →
      pass2Loop o (f :: rest) (errs, dm)
        = pass2Loop o rest (true, insertEntry dm f.key (.error (errorLabel e)))
      ∧ ((∀ g ∈ rest, g.key ≠ f.key) →
        (pass2Loop o (f :: rest) (errs, dm)).2.lookup f.key
          = some (.error (errorLabel e))
        ∧ (pass2Loop o (f :: rest) (errs, dm)).1 = true))
    ∧ (o.prewarm = .error e →
      (pass1Loop o flags (false, [], [])).2.2.isEmpty = false →
      (evaluate_flags_with_overrides o flags).errors_while_computing_flags = true
      ∧ ∀ g ∈ (pass1Loop o flags (false, [], [])).2.2,
        (evaluate_flags_with_overrides o flags).flags.lookup g.key
          = some (.error (errorLabel e))) := by
  refine ⟨fun hp1 hact hdel => ?_, fun hp2 => ?_, fun hpw hne => ?_⟩
  · have hone : ∀ st : Bool × List (String × FlagDetails) × List FeatureFlag,
        pass1Loop o (f :: l2) st = pass1Loop o l2 (true, st.2.1, st.2.2) := by
      intro st
      obtain ⟨b, dm0, need0⟩ := st
      simp only [pass1Loop, hact, hdel, Bool.not_true, Bool.or_false,
        Bool.false_eq_true, if_false]
      rw [hp1]
    have key : pass1Loop o (l1 ++ f :: l2) (false, [], [])
        = (true, (pass1Loop o (l1 ++ l2) (false, [], [])).2) := by
      rw [pass1Loop_append, pass1Loop_append]
      rcases hA : pass1Loop o l1 (false, [], []) with ⟨b0, dm0, need0⟩
      rw [hone ⟨b0, dm0, need0⟩]
      dsimp only
      rw [pass1Loop_errs_or o l2 true dm0 need0, pass1Loop_errs_or o l2 b0 dm0 need0]
      simp
    unfold evaluate_flags_with_overrides
    rw [key]
    rcases hB : pass1Loop o (l1 ++ l2) (false, [], []) with ⟨b1, dm1, need1⟩
    dsimp only
    by_cases hn : need1.isEmpty
    · simp [hn]
    · simp only [hn, Bool.false_eq_true, if_false]
      cases o.prewarm with
      | error e2 => exact ⟨rfl, rfl⟩
      | ok u =>
          dsimp only
          rw [pass2Loop_errs_or o need1 true dm1, pass2Loop_errs_or o need1 b1 dm1]
          simp
  · have hstep : pass2Loop o (f :: rest) (errs, dm)
        = pass2Loop o rest (true, insertEntry dm f.key (.error (errorLabel e))) := by
      simp only [pass2Loop]
      rw [hp2]
    refine ⟨hstep, fun hk => ?_⟩
    constructor
    · rw [hstep, pass2Loop_preserve o f.key rest true _ fun g hg => hk g hg,
        insertEntry_lookup_self]
    · rw [hstep, pass2Loop_errs_or]
      simp
  · unfold evaluate_flags_with_overrides
    rcases hst : pass1Loop o flags (false, [], []) with ⟨errs0, dm0, need0⟩
    rw [hst] at hne
    dsimp only at hne ⊢
    simp only [hne, Bool.false_eq_true, if_false]
    rw [hpw]
    dsimp only
    refine ⟨rfl, fun g hg => ?_⟩
    exact foldl_insert_mem e g.key need0 dm0 ⟨g, hg, rfl⟩

/-- Oracles for the C8 witness, overrides-only pass failing. -/
def c8oA : BatchOracles :=
  ⟨fun _ => .error .timeoutError, .ok (),
   fun _ => .ok ⟨false, none, .NoConditionMatch, none, none⟩⟩

/-- Oracles for the C8 witness, DB-backed pass failing. -/
def c8oB : BatchOracles :=
  ⟨fun _ => .ok none, .ok (), fun _ => .error .timeoutError⟩

/-- Oracles for the C8 witness, pre-warm failing. -/
def c8oC : BatchOracles :=
  ⟨fun _ => .ok none, .error .databaseUnavailable,
   fun _ => .ok ⟨false, none, .NoConditionMatch, none, none⟩⟩

/-- Flag "a" for the C8 witness. -/
def c8fa : FeatureFlag := ⟨"a", true, false, false, ⟨[], none, none, [], none, none⟩⟩

/-- Flag "b" for the C8 witness. -/
def c8fb : FeatureFlag := ⟨"b", true, false, false, ⟨[], none, none, [], none, none⟩⟩

/-- Witness for c8_single_flag_error_isolation at concrete oracles: a pass-1
error leaves the other flag's outcome unchanged and sets the batch flag; a
pass-2 error records an error entry and sets the batch flag; a pre-warm
failure marks deferred flags with the same reason. -/
theorem c8_single_flag_error_isolation_witness :
    ((evaluate_flags_with_overrides c8oA [c8fa, c8fb]).flags
        = (evaluate_flags_with_overrides c8oA [c8fb]).flags
      ∧ (evaluate_flags_with_overrides c8oA [c8fa, c8fb]).errors_while_computing_flags
        = true)
    ∧ ((pass2Loop c8oB [c8fa] (false, [])).2.lookup "a" = some (.error "timeout")
      ∧ (pass2Loop c8oB [c8fa] (false, [])).1 = true)
    ∧ ((evaluate_flags_with_overrides c8oC [c8fa, c8fb]).errors_while_computing_flags
        = true
      ∧ (evaluate_flags_with_overrides c8oC [c8fa, c8fb]).flags.lookup "a"
        = some (.error "database_unavailable")) := by
  refine ⟨?_, ?_, ?_⟩
  · exact (c8_single_flag_error_isolation c8oA c8fa [] [c8fb] [] []
      .timeoutError false []).1 rfl rfl rfl
  · exact ((c8_single_flag_error_isolation c8oB c8fa [] [] [] []
      .timeoutError false []).2.1 rfl).2 (by simp)
  · have h := (c8_single_flag_error_isolation c8oC c8fa [] [] [] [c8fa, c8fb]
      .databaseUnavailable false []).2.2 rfl (by decide)
    exact ⟨h.1, h.2 c8fa (by decide)⟩

/- ----------------------------------------------------------------- -/
/- CohortResolver: dependency graph construction, cycle detection,    -/
/- topological evaluation.                                            -/
/- ----------------------------------------------------------------- -/

/-- Modelled from the spec (§3): Cohort (crate::cohort::cohort_models is not
under src/) — "(id, is_static, filter_tree)"; dynamic cohorts have a parsed
filter list plus a set of dependency cohort ids.  parse_filters and
extract_dependencies expose those two fields (their parsing never fails in
this model). -/
structure Cohort where
  id : Int
  is_static : Bool
  filters : List PropertyFilter
  dependencies : List Int
deriving DecidableEq, Repr

/-- Cohort::parse_filters. -/
def Cohort.parse_filters (c : Cohort) : List PropertyFilter := c.filters

/-- Cohort::extract_dependencies. -/
def Cohort.extract_dependencies (c : Cohort) : List Int := c.dependencies

/-- petgraph DiGraph<CohortId, ()>: node payloads by index, edges as index
pairs in insertion order. -/
structure CohortGraph where
  nodes : List Int
  edges : List (Nat × Nat)
deriving DecidableEq, Repr

/-- cohorts.iter().find(|c| c.id == id). -/
def findCohort (cohorts : List Cohort) (cid : Int) : Option Cohort :=
  cohorts.find? fun c => c.id == cid

/-- graph.add_node: append, returning the new NodeIndex. -/
def addNode (g : CohortGraph) (cid : Int) : CohortGraph × Nat :=
  ({ g with nodes := g.nodes ++ [cid] }, g.nodes.length)

/-- The BFS working state: graph, node_map, and the VecDeque. -/
structure BuildState where
  graph : CohortGraph
  node_map : List (Int × Nat)
  queue : List Int
deriving DecidableEq, Repr

/-- The `for dep_id in dependencies` body of build_cohort_dependency_graph:
node_map.entry(dep_id).or_insert_with(add_node), add the edge, then the
source's enqueue guard `if !node_map.contains_key(&dep_id)` — checked after
the entry call just inserted the key, exactly as written. -/
def processDeps (st : BuildState) (current_node : Nat) :
    List Int → BuildState
  | [] => st
  | dep_id :: deps =>
      let entry :=
        match st.node_map.lookup dep_id with
        | some n => (st.graph, st.node_map, n)
        | none =>
            let gn := addNode st.graph dep_id
            (gn.1, st.node_map ++ [(dep_id, gn.2)], gn.2)
      let g2 := { entry.1 with edges := entry.1.edges ++ [(current_node, entry.2.2)] }
      let queue1 :=
        if (entry.2.1.lookup dep_id).isSome then st.queue
        else st.queue ++ [dep_id]
      processDeps { graph := g2, node_map := entry.2.1, queue := queue1 }
        current_node deps

/-- The BFS while-loop of build_cohort_dependency_graph, fuel-bounded (the
fuel below strictly exceeds any possible number of iterations: an id is
enqueued only when absent from node_map at the guard, and each pop consumes
one element). -/
def buildLoop (cohorts : List Cohort) : Nat → BuildState →
    Except FlagError BuildState
  | 0, st => .ok st
  | fuel + 1, st =>
      match st.queue with
      | [] => .ok st
      | cohort_id :: queue_rest =>
          match findCohort cohorts cohort_id with
          | none => .error (.cohortNotFound (toString cohort_id))
          | some cohort =>
              let current_node := (st.node_map.lookup cohort_id).getD 0
              buildLoop cohorts fuel
                (processDeps { st with queue := queue_rest } current_node
                  cohort.extract_dependencies)

/-- Whether some edge from a remaining node enters v. -/
def hasIncomingFrom (edges : List (Nat × Nat)) (remaining : List Nat)
    (v : Nat) : Bool :=
  edges.any fun e => e.2 == v && remaining.contains e.1

/-- Kahn's algorithm: repeatedly emit a node with no incoming edge from the
remaining set; none = cycle.  (petgraph's toposort/is_cyclic_directed are
DFS-based; any topological order is equivalent for the uses here, and
success coincides with acyclicity.) -/
def kahnGo (edges : List (Nat × Nat)) : Nat → List Nat → List Nat →
    Option (List Nat)
  | 0, remaining, acc => if remaining.isEmpty then some acc.reverse else none
  | fuel + 1, remaining, acc =>
      if remaining.isEmpty then some acc.reverse
      else
        match remaining.find? fun v => !hasIncomingFrom edges remaining v with
        | none => none
        | some v => kahnGo edges fuel (remaining.erase v) (v :: acc)

/-- Topological sort of the graph's node indices. -/
def toposortG (g : CohortGraph) : Option (List Nat) :=
  kahnGo g.edges g.nodes.length (List.range g.nodes.length) []

/-- petgraph::algo::is_cyclic_directed. -/
def is_cyclic_directed (g : CohortGraph) : Bool :=
  (toposortG g).isNone

/-- build_cohort_dependency_graph: static root yields the empty graph;
otherwise seed the root node and run the BFS, then reject cycles naming the
root. -/
def build_cohort_dependency_graph (initial_cohort_id : Int)
    (cohorts : List Cohort) : Except FlagError CohortGraph :=
  match findCohort cohorts initial_cohort_id with
  | none => .error (.cohortNotFound (toString initial_cohort_id))
  | some initial_cohort =>
      if initial_cohort.is_static then .ok ⟨[], []⟩
      else
        match buildLoop cohorts
          (cohorts.length + (cohorts.map fun c => c.dependencies.length).sum + 1)
          ⟨⟨[initial_cohort_id], []⟩, [(initial_cohort_id, 0)], [initial_cohort_id]⟩ with
        | .error e => .error e
        | .ok st =>
            if is_cyclic_directed st.graph then
              .error (.cohortDependencyCycle
                ("Cyclic dependency detected starting at cohort "
                  ++ toString initial_cohort_id))
            else .ok st.graph

/-- HashMap::insert on the evaluation-results association list. -/
def insertResult (results : List (Int × Bool)) (k : Int) (v : Bool) :
    List (Int × Bool) :=
  match results with
  | [] => [(k, v)]
  | (k', v') :: rest =>
      if k' = k then (k, v) :: rest else (k', v') :: insertResult rest k v

/-- One iteration of evaluate_dynamic_cohorts' loop: record false and move on
when a dependency is missing or failed, else record the conjunction of the
cohort's property filters under the match_property oracle. -/
def evalCohortsStep (mp : PropertyFilter → List (String × JsonValue) → Bool)
    (target_properties : List (String × JsonValue)) (cohorts : List Cohort)
    (evaluation_results : List (Int × Bool)) (cohort_id : Int) :
    Except FlagError (List (Int × Bool)) :=
  match findCohort cohorts cohort_id with
  | none => .error (.cohortNotFound (toString cohort_id))
  | some cohort =>
      let dependencies_met := cohort.extract_dependencies.all fun dep_id =>
        (evaluation_results.lookup dep_id).getD false
      if !dependencies_met then
        .ok (insertResult evaluation_results cohort_id false)
      else
        .ok (insertResult evaluation_results cohort_id
          (cohort.parse_filters.all fun filter => mp filter target_properties))

/-- The loop of evaluate_dynamic_cohorts over the (already reversed)
topological order. -/
def evalCohortsFold (mp : PropertyFilter → List (String × JsonValue) → Bool)
    (target_properties : List (String × JsonValue)) (cohorts : List Cohort) :
    List Int → List (Int × Bool) → Except FlagError (List (Int × Bool))
  | [], results => .ok results
  | cid :: rest, results =>
      match evalCohortsStep mp target_properties cohorts results cid with
      | .error e => .error e
      | .ok results' => evalCohortsFold mp target_properties cohorts rest results'

/-- evaluate_dynamic_cohorts: static root short-circuits to false; build the
graph, toposort (cycle ⇒ CohortDependencyCycle), evaluate in reverse
topological order, return the root's recorded result. -/
def evaluate_dynamic_cohorts
    (mp : PropertyFilter → List (String × JsonValue) → Bool)
    (initial_cohort_id : Int)
    (target_properties : List (String × JsonValue))
    (cohorts : List Cohort) : Except FlagError Bool :=
  match findCohort cohorts initial_cohort_id with
  | none => .error (.cohortNotFound (toString initial_cohort_id))
  | some initial_cohort =>
      if initial_cohort.is_static then .ok false
      else
        match build_cohort_dependency_graph initial_cohort_id cohorts with
        | .error e => .error e
        | .ok graph =>
            match toposortG graph with
            | none => .error (.cohortDependencyCycle "Cyclic dependency detected")
            | some sorted_nodes =>
                match evalCohortsFold mp target_properties cohorts
                  (sorted_nodes.reverse.map fun n => graph.nodes.getD n 0) [] with
                | .error e => .error e
                | .ok results =>
                    match results.lookup initial_cohort_id with
                    | some b => .ok b
                    | none => .error (.cohortNotFound (toString initial_cohort_id))

/-- C5: the BFS in build_cohort_dependency_graph never enqueues dependencies:
the `entry(dep_id).or_insert_with(add_node)` call inserts dep_id into
node_map before the `if !node_map.contains_key(&dep_id)` enqueue guard runs,
so the guard is always false and only the root's direct dependencies get
nodes and edges.  At the chain 3 → 2 → 1, cohort 1 and the edge 2 → 1 are
missing from the graph, and evaluation returns false even though every
filter matches; at the cycle 1 ⇄ 2, no CohortDependencyCycle error is
raised — evaluation returns Ok(false). -/
theorem c5_bfs_traversal_truncated :
    build_cohort_dependency_graph 3
        [⟨1, false, [], []⟩, ⟨2, false, [], [1]⟩, ⟨3, false, [], [2]⟩]
      = .ok ⟨[3, 2], [(0, 1)]⟩
    ∧ evaluate_dynamic_cohorts (fun _ _ => true) 3 []
        [⟨1, false, [], []⟩, ⟨2, false, [], [1]⟩, ⟨3, false, [], [2]⟩]
      = .ok false
    ∧ evaluate_dynamic_cohorts (fun _ _ => true) 1 []
        [⟨1, false, [], [2]⟩, ⟨2, false, [], [1]⟩]
      = .ok false := by
  refine ⟨by decide, by decide, by decide⟩

/-- Kahn invariant: a successful run extends the accumulator with a
selection sel drawn from the remaining set, in which the source of any edge
into a selected node was selected strictly earlier (or had already left the
remaining set). -/
lemma kahnGo_topo (edges : List (Nat × Nat)) :
    ∀ (fuel : Nat) (remaining acc L : List Nat),
      kahnGo edges fuel remaining acc = some L →
      ∃ sel, L = acc.reverse ++ sel
        ∧ (∀ x ∈ sel, x ∈ remaining)
        ∧ (∀ e ∈ edges, ∀ s1 s2, sel = s1 ++ e.2 :: s2 →
            e.1 ∈ remaining → e.1 ∈ s1) := by
  intro fuel
  induction fuel with
  | zero =>
      intro remaining acc L h
      simp only [kahnGo] at h
      by_cases hre : remaining.isEmpty
      · rw [if_pos hre] at h
        refine ⟨[], by simpa using (Option.some.inj h).symm,
          fun x hx => absurd hx (by simp), ?_⟩
        intro e _ s1 s2 hs
        exact absurd hs (by simp)
      · rw [if_neg hre] at h; cases h
  | succ fuel ih =>
      intro remaining acc L h
      simp only [kahnGo] at h
      by_cases hre : remaining.isEmpty
      · rw [if_pos hre] at h
        refine ⟨[], by simpa using (Option.some.inj h).symm,
          fun x hx => absurd hx (by simp), ?_⟩
        intro e _ s1 s2 hs
        exact absurd hs (by simp)
      · rw [if_neg hre] at h
        cases hfind : remaining.find? (fun v => !hasIncomingFrom edges remaining v) with
        | none => rw [hfind] at h; cases h
        | some v =>
            rw [hfind] at h
            obtain ⟨sel', hL, hmem, hord⟩ := ih (remaining.erase v) (v :: acc) L h
            have hv_mem : v ∈ remaining := List.mem_of_find?_eq_some hfind
            have hv_pred := List.find?_some hfind
            simp only [Bool.not_eq_true'] at hv_pred
            refine ⟨v :: sel', by rw [hL]; simp, ?_, ?_⟩
            · intro x hx
              rcases List.mem_cons.mp hx with h' | h'
              · subst h'; exact hv_mem
              · exact List.mem_of_mem_erase (hmem x h')
            · intro e he s1 s2 hs ha
              cases s1 with
              | nil =>
                  simp only [List.nil_append, List.cons.injEq] at hs
                  exfalso
                  have hin : hasIncomingFrom edges remaining v = true := by
                    unfold hasIncomingFrom
                    refine List.any_eq_true.mpr ⟨e, he, ?_⟩
                    simp [← hs.1, ha]
                  simp [hv_pred] at hin
              | cons w s1' =>
                  simp only [List.cons_append, List.cons.injEq] at hs
                  obtain ⟨hvw, hsel⟩ := hs
                  by_cases hev : e.1 = v
                  · rw [hev, hvw]
                    exact List.mem_cons_self _ _
                  · have hmem' : e.1 ∈ remaining.erase v :=
                      (List.mem_erase_of_ne hev).mpr ha
                    exact List.mem_cons_of_mem _ (hord e he s1' s2 hsel hmem')

/-- The value evalCohortsStep records for a found cohort. -/
lemma evalCohortsStep_value (mp : PropertyFilter → List (String × JsonValue) → Bool)
    (props : List (String × JsonValue)) (cohorts : List Cohort)
    (results : List (Int × Bool)) (cid : Int) (cohort : Cohort)
    (hfind : findCohort cohorts cid = some cohort) :
    evalCohortsStep mp props cohorts results cid
      = .ok (insertResult results cid
          ((cohort.extract_dependencies.all fun dep =>
              (results.lookup dep).getD false)
            && (cohort.parse_filters.all fun filter => mp filter props))) := by
  unfold evalCohortsStep
  rw [hfind]
  dsimp only
  by_cases hdep : (cohort.extract_dependencies.all fun dep =>
      (results.lookup dep).getD false) = true
  · simp [hdep]
  · simp [Bool.not_eq_true _ ▸ hdep, Bool.eq_false_iff.mpr hdep]

/-- C6: the dynamic-cohort walk.  (a) A cohort is recorded as matching iff
every one of its dependencies is present and true in the accumulated result
map AND every one of its property filters matches the supplied properties
(a missing or failed dependency records false); (b) the walk continues over
the remaining cohorts after recording — a failed dependency does not abort
it; (c) the order evaluate_dynamic_cohorts walks is the reverse of a
topological order: in the sorted list every edge's source (the dependent
cohort) precedes its target (the dependency), so after reversal every
dependency is evaluated first. -/
theorem c6_reverse_topological_walk
    (mp : PropertyFilter → List (String × JsonValue) → Bool)
    (props : List (String × JsonValue)) (cohorts : List Cohort)
    (results : List (Int × Bool)) (cid : Int) (cohort : Cohort)
    (rest : List Int) (g : CohortGraph) (L : List Nat) :
    (findCohort cohorts cid = some cohort →
      evalCohortsStep mp props cohorts results cid
        = .ok (insertResult results cid
            ((cohort.extract_dependencies.all fun dep =>
                (results.lookup dep).getD false)
              && (cohort.parse_filters.all fun filter => mp filter props))))
    ∧ (findCohort cohorts cid = some cohort →
      evalCohortsFold mp props cohorts (cid :: rest) results
        = evalCohortsFold mp props cohorts rest
            (insertResult results cid
              ((cohort.extract_dependencies.all fun dep =>
                  (results.lookup dep).getD false)
                && (cohort.parse_filters.all fun filter => mp filter props))))
    ∧ (toposortG g = some L →
      ∀ e ∈ g.edges, e.1 ∈ L → e.2 ∈ L →
        ∃ i j, i < j ∧ L.get? i = some e.1 ∧ L.get? j = some e.2) := by
  refine ⟨fun hfind => evalCohortsStep_value mp props cohorts results cid cohort hfind,
    fun hfind => ?_, fun htopo e he he1 he2 => ?_⟩
  · simp only [evalCohortsFold,
      evalCohortsStep_value mp props cohorts results cid cohort hfind]
  · unfold toposortG at htopo
    obtain ⟨sel, hL, hmem, hord⟩ := kahnGo_topo g.edges _ _ _ _ htopo
    simp only [List.reverse_nil, List.nil_append] at hL
    subst hL
    have ha_mem : e.1 ∈ List.range g.nodes.length := hmem _ he1
    obtain ⟨s1, s2, hsplit⟩ := List.append_of_mem he2
    have h1 : e.1 ∈ s1 := hord e he s1 s2 hsplit ha_mem
    obtain ⟨i, hi⟩ := List.get?_of_mem h1
    obtain ⟨hlt, _⟩ := List.get?_eq_some.mp hi
    refine ⟨i, s1.length, hlt, ?_, ?_⟩
    · rw [hsplit, List.get?_append hlt]
      exact hi
    · rw [hsplit, List.get?_append_right (le_refl s1.length)]
      simp

/-- Witness for c6_reverse_topological_walk at concrete inputs: a cohort with
a missing dependency records false (and only false), the fold continues to a
normal result, and in the toposorted node list of the two-node graph the
dependent node precedes its dependency. -/
theorem c6_reverse_topological_walk_witness :
    evalCohortsStep (fun _ _ => true) [] [⟨2, false, [], [1]⟩] [] 2 = .ok [(2, false)]
    ∧ evalCohortsFold (fun _ _ => true) [] [⟨2, false, [], [1]⟩] [2] [] = .ok [(2, false)]
    ∧ ∃ i j, i < j ∧ ([0, 1] : List Nat).get? i = some 0
        ∧ ([0, 1] : List Nat).get? j = some 1 := by
  have t := c6_reverse_topological_walk (fun _ _ => true) [] [⟨2, false, [], [1]⟩]
    [] 2 ⟨2, false, [], [1]⟩ [] ⟨[3, 2], [(0, 1)]⟩ [0, 1]
  refine ⟨(t.1 (by decide)).trans (by decide), (t.2.1 (by decide)).trans (by decide), ?_⟩
  exact t.2.2 (by decide) (0, 1) (by decide) (by decide) (by decide)
